import Mathlib

set_option maxRecDepth 100000

/-!
Verification development for the trade-front real-time market-data
transport layer: the binary wire codec (`src/utils/binaryProtocol.ts`,
both shipped revisions), the WebSocket service dispatch, queueing,
heartbeat and reconnection logic (`src/services/websocket.ts`), and the
TradingView datafeed subscription reference counting
(`src/components/TradingChart/datafeed.ts`).

Frames are byte lists (each entry a value below 256).  JavaScript
`number` payload fields hold IEEE-754 binary64 values; the decoders only
ever copy such fields (they never compute with them), so a field is
embedded as its 64-bit pattern (a `Nat`), with `f64ToRat` giving the
rational value of a finite pattern where a claim speaks about numeric
values.  `DataView` reads are little-endian and throw on out-of-range
access; since every decoder wraps its body in try/catch returning null,
reads are embedded as `Option`-valued with `none` for the caught
exception path.
-/

namespace TradeFront

/-- Bytes of a frame, little-endian wire order. -/
abbrev Bytes := List Nat

/-- Combine a byte list little-endian into a natural number
(`bs[0] + 256 * bs[1] + ...`). -/
def combineLE (bs : Bytes) : Nat :=
  bs.foldr (fun b acc => b + 256 * acc) 0

/-- Contiguous slice of `n` bytes starting at `i`. -/
def slice (d : Bytes) (i n : Nat) : Bytes :=
  (d.drop i).take n

/-- Read `n` bytes at offset `i` as a little-endian integer;
`none` models the `RangeError` DataView throws when out of range. -/
def readN (d : Bytes) (i n : Nat) : Option Nat :=
  if i + n ≤ d.length then some (combineLE (slice d i n)) else none

/-- DataView.getUint16(i, true). -/
def readU16 (d : Bytes) (i : Nat) : Option Nat := readN d i 2

/-- DataView.getUint32(i, true). -/
def readU32 (d : Bytes) (i : Nat) : Option Nat := readN d i 4

/-- DataView.getFloat64(i, true), embedded as the 64-bit pattern. -/
def readF64 (d : Bytes) (i : Nat) : Option Nat := readN d i 8

/-- Construction of `new Uint8Array(data, i, n)`; throws (none) when out
of range. -/
def readBytes (d : Bytes) (i n : Nat) : Option Bytes :=
  if i + n ≤ d.length then some (slice d i n) else none

/-- Little-endian 2-byte encoding. -/
def le16 (v : Nat) : Bytes := [v % 256, v / 256 % 256]

/-- Little-endian 4-byte encoding. -/
def le32 (v : Nat) : Bytes :=
  [v % 256, v / 256 % 256, v / 65536 % 256, v / 16777216 % 256]

/-- Rational value of a finite IEEE-754 binary64 bit pattern (NaN and
infinities, which no claim mentions, are collapsed to 0). -/
def f64ToRat (bits : Nat) : ℚ :=
  let sgn : ℚ := if bits / 2 ^ 63 % 2 = 1 then -1 else 1
  let e : ℕ := bits / 2 ^ 52 % 2048
  let m : ℕ := bits % 2 ^ 52
  if e = 0 then sgn * (m : ℚ) * (2 : ℚ) ^ (-1074 : ℤ)
  else if e = 2047 then 0
  else sgn * ((2 ^ 52 + m : ℕ) : ℚ) * (2 : ℚ) ^ ((e : ℤ) - 1075)

/-! CRC-32, translated from the `crc32` function at the bottom of
`binaryProtocol.ts` (identical in both revisions). -/

/-- The reflected CRC-32 polynomial used by the source. -/
def crcPoly : Nat := 0xEDB88320

/-- One iteration of the inner bit loop:
`crc = (crc & 1) ? (crc >>> 1) ^ polynomial : crc >>> 1`. -/
def crcBitStep (c : Nat) : Nat :=
  if c &&& 1 = 1 then (c / 2) ^^^ crcPoly else c / 2

/-- One iteration of the outer byte loop: `crc ^= data[i]` followed by
eight bit steps. -/
def crcByteStep (c b : Nat) : Nat := crcBitStep^[8] (c ^^^ b)

/-- The `crc32` function: init 0xFFFFFFFF, byte steps, final xor.
The JS trailing `>>> 0` is the identity on values below 2^32. -/
def crc32 (data : Bytes) : Nat :=
  (data.foldl crcByteStep 0xFFFFFFFF) ^^^ 0xFFFFFFFF

/-- BinaryDecoder.validateChecksum: compare the trailing 4 bytes (read
little-endian) against the CRC-32 of all preceding bytes; frames whose
payload region is shorter than 8 bytes fail closed. -/
def validateChecksum (d : Bytes) : Bool :=
  let payloadSize := d.length - 4
  if payloadSize < 8 then false
  else
    match readU32 d payloadSize with
    | some expected => expected == crc32 (d.take payloadSize)
    | none => false

/-! The first shipped revision of the codec
(`src/src/utils/binaryProtocol.ts`): PriceUpdate frames carry four
doubles (price, bid, ask, volume). -/

/-- Decoded PriceUpdate of the four-double codec revision; double fields
are 64-bit patterns. -/
structure PriceData where
  symbol : Bytes
  price : Nat
  bid : Nat
  ask : Nat
  volume : Nat
  timestamp : Nat
deriving DecidableEq

/-- Decoded EnigmaUpdate of the first codec revision. -/
structure EnigmaData where
  symbol : Bytes
  level : Nat
  ath : Nat
  atl : Nat
  l0 : Nat
  l236 : Nat
  l382 : Nat
  l50 : Nat
  l618 : Nat
  l786 : Nat
  l100 : Nat
  timestamp : Nat
deriving DecidableEq

namespace BinaryDecoder

/-- BinaryDecoder.decodePriceUpdate (four-double revision): checksum
check, type check (0x0001), then symbolLen, timestamp (seconds, scaled
to ms), symbol bytes, and four little-endian doubles. -/
def decodePriceUpdate (d : Bytes) : Option PriceData :=
  if validateChecksum d = false then none else
  match readU16 d 0 with
  | none => none
  | some msgType =>
    if msgType ≠ 1 then none else
    match readU16 d 2, readU32 d 4 with
    | some symbolLen, some ts =>
      match readBytes d 8 symbolLen, readF64 d (8 + symbolLen),
            readF64 d (16 + symbolLen), readF64 d (24 + symbolLen),
            readF64 d (32 + symbolLen) with
      | some sym, some p, some b, some a, some v =>
        some ⟨sym, p, b, a, v, ts * 1000⟩
      | _, _, _, _, _ => none
    | _, _ => none

/-- Record loop body of decodeBatchPriceUpdate: reads `count` records of
(symbolLen, symbol, 4 doubles) starting at `off`; any out-of-range read
aborts the whole batch (the JS try/catch discards records already
parsed). -/
def parseRecords (d : Bytes) (off : Nat) (count : Nat) (ts : Nat) :
    Option (List PriceData) :=
  match count with
  | 0 => some []
  | n + 1 =>
    match readU16 d off with
    | none => none
    | some sl =>
      match readBytes d (off + 2) sl, readF64 d (off + 2 + sl),
            readF64 d (off + 10 + sl), readF64 d (off + 18 + sl),
            readF64 d (off + 26 + sl) with
      | some sym, some p, some b, some a, some v =>
        match parseRecords d (off + 34 + sl) n ts with
        | none => none
        | some rest => some (⟨sym, p, b, a, v, ts * 1000⟩ :: rest)
      | _, _, _, _, _ => none

/-- BinaryDecoder.decodeBatchPriceUpdate: checksum check, batch-flag
check, count and shared timestamp, then the record loop; every failure
path returns the empty array. -/
def decodeBatchPriceUpdate (d : Bytes) : List PriceData :=
  if validateChecksum d = false then [] else
  match readU16 d 0 with
  | none => []
  | some msgType =>
    if msgType &&& 32768 = 0 then [] else
    match readU16 d 2, readU32 d 4 with
    | some count, some ts => (parseRecords d 8 count ts).getD []
    | _, _ => []

/-- BinaryDecoder.decodeEnigmaUpdate (first revision): checksum, type
0x0002, header, symbol, then level, ath, atl and seven fib levels. -/
def decodeEnigmaUpdate (d : Bytes) : Option EnigmaData :=
  if validateChecksum d = false then none else
  match readU16 d 0 with
  | none => none
  | some msgType =>
    if msgType ≠ 2 then none else
    match readU16 d 2, readU32 d 4 with
    | some symbolLen, some ts =>
      match readBytes d 8 symbolLen, readF64 d (8 + symbolLen),
            readF64 d (16 + symbolLen), readF64 d (24 + symbolLen) with
      | some sym, some lv, some ath, some atl =>
        match readF64 d (32 + symbolLen), readF64 d (40 + symbolLen),
              readF64 d (48 + symbolLen), readF64 d (56 + symbolLen),
              readF64 d (64 + symbolLen), readF64 d (72 + symbolLen),
              readF64 d (80 + symbolLen) with
        | some a0, some a236, some a382, some a50, some a618, some a786,
          some a100 =>
          some ⟨sym, lv, ath, atl, a0, a236, a382, a50, a618, a786, a100,
                ts * 1000⟩
        | _, _, _, _, _, _, _ => none
      | _, _, _, _ => none
    | _, _ => none

/-- BinaryDecoder.decodeHeartbeat: checksum, type 0x0005, then the
4-byte timestamp at offset 4, scaled to milliseconds. -/
def decodeHeartbeat (d : Bytes) : Option Nat :=
  if validateChecksum d = false then none else
  match readU16 d 0 with
  | none => none
  | some msgType =>
    if msgType ≠ 5 then none else
    match readU32 d 4 with
    | some ts => some (ts * 1000)
    | none => none

/-- BinaryDecoder.getMessageType: null when shorter than 2 bytes. -/
def getMessageType (d : Bytes) : Option Nat := readU16 d 0

/-- Result of BinaryDecoder.decode: the envelope type string together
with the typed payload (which is null / empty exactly when the typed
decoder failed). -/
inductive Decoded where
  | price (p : Option PriceData)
  | batchPrice (ps : List PriceData)
  | enigma (e : Option EnigmaData)
  | heartbeat (t : Option Nat)
deriving DecidableEq

/-- Envelope type string of a decode result. -/
def Decoded.typeName : Decoded → String
  | .price _ => "price"
  | .batchPrice _ => "batch_price"
  | .enigma _ => "enigma"
  | .heartbeat _ => "heartbeat"

/-- BinaryDecoder.decode: the JS `if (!msgType) return null` discards
both short frames and a zero type code; the batch flag is tested first,
then the exact type codes 1, 2, 5, anything else is null. -/
def decode (d : Bytes) : Option Decoded :=
  match getMessageType d with
  | none => none
  | some msgType =>
    if msgType = 0 then none
    else if msgType &&& 32768 ≠ 0 then
      some (.batchPrice (decodeBatchPriceUpdate d))
    else if msgType = 1 then some (.price (decodePriceUpdate d))
    else if msgType = 2 then some (.enigma (decodeEnigmaUpdate d))
    else if msgType = 5 then some (.heartbeat (decodeHeartbeat d))
    else none

end BinaryDecoder

/-! The second shipped revision of the codec (the `binaryProtocol.ts`
revision with 24-hour change fields): PriceUpdate frames carry nine
doubles (price, bid, ask, volume, change24h, changePercent, open24h,
high24h, low24h). -/

/-- Decoded PriceUpdate of the nine-double codec revision. -/
structure PriceDataV2 where
  symbol : Bytes
  price : Nat
  bid : Nat
  ask : Nat
  volume : Nat
  change24h : Nat
  changePercent : Nat
  open24h : Nat
  high24h : Nat
  low24h : Nat
  timestamp : Nat
deriving DecidableEq

namespace BinaryDecoderV2

/-- BinaryDecoder.decodePriceUpdate of the nine-double revision:
checksum check, type check (0x0001), header, symbol bytes, then nine
little-endian doubles in the fixed order price, bid, ask, volume,
change24h, changePercent, open24h, high24h, low24h. -/
def decodePriceUpdate (d : Bytes) : Option PriceDataV2 :=
  if validateChecksum d = false then none else
  match readU16 d 0 with
  | none => none
  | some msgType =>
    if msgType ≠ 1 then none else
    match readU16 d 2, readU32 d 4 with
    | some symbolLen, some ts =>
      match readBytes d 8 symbolLen, readF64 d (8 + symbolLen),
            readF64 d (16 + symbolLen), readF64 d (24 + symbolLen),
            readF64 d (32 + symbolLen) with
      | some sym, some p, some b, some a, some v =>
        match readF64 d (40 + symbolLen), readF64 d (48 + symbolLen),
              readF64 d (56 + symbolLen), readF64 d (64 + symbolLen),
              readF64 d (72 + symbolLen) with
        | some c24, some cp, some o24, some h24, some l24 =>
          some ⟨sym, p, b, a, v, c24, cp, o24, h24, l24, ts * 1000⟩
        | _, _, _, _, _ => none
      | _, _, _, _, _ => none
    | _, _ => none

end BinaryDecoderV2

/-! WebSocketService message handling
(`src/services/websocket.ts`, the revision using `WS_CONFIG`): listener
registry, binary message decode, batch fan-out and handler dispatch.
The listener registry embeds the `Map<string, Set<MessageHandler>>` as
a list of (event-type key, handler id) registrations; an invocation is
recorded with the registration that triggered it.  Envelope `timestamp`
fields (wall-clock `Date.now()` values) are not modelled: no claim
mentions them. -/

/-- Payload slot of a dispatched WebSocketMessage. -/
inductive WsData where
  | nullData
  | priceVal (p : PriceData)
  | batchVal (ps : List PriceData)
  | enigmaVal (e : EnigmaData)
  | heartbeatVal (t : Nat)
deriving DecidableEq

/-- One WebSocketMessage as delivered to handlers. -/
structure WsMessage where
  type : String
  data : WsData
deriving DecidableEq

/-- Payload slot of the envelope produced by `BinaryDecoder.decode`:
null when the typed decoder failed. -/
def BinaryDecoder.Decoded.dataVal : BinaryDecoder.Decoded → WsData
  | .price none => .nullData
  | .price (some p) => .priceVal p
  | .batchPrice ps => .batchVal ps
  | .enigma none => .nullData
  | .enigma (some e) => .enigmaVal e
  | .heartbeat none => .nullData
  | .heartbeat (some t) => .heartbeatVal t

namespace WebSocketService

/-- Handler registry: (event-type key, handler id) registrations in
insertion order; a JS `Set` never holds the same handler twice under
one key. -/
abbrev Registry := List (String × Nat)

/-- One recorded handler invocation: the registration key it was looked
up under, the handler id, and the message delivered. -/
abbrev Invocation := String × Nat × WsMessage

/-- Handlers registered under `key` (`messageHandlers.get(key)`),
in insertion order. -/
def handlersFor (reg : Registry) (key : String) : List Nat :=
  (reg.filter (fun e => e.1 == key)).map (fun e => e.2)

/-- Individual price message fabricated for each record of a batch. -/
def priceMessage (p : PriceData) : WsMessage :=
  { type := "price", data := .priceVal p }

/-- Per-record fan-out inside decodeBinaryMessage: for each record of
the batch, in array order, every handler registered under "price" is
invoked with an individual price message (the records are plain
objects, so the JS truthiness guard on them always passes). -/
def batchRecordInvocations (reg : Registry) (ps : List PriceData) :
    List Invocation :=
  ps.flatMap fun p =>
    (handlersFor reg "price").map (fun h => ("price", h, priceMessage p))

/-- WebSocketService.decodeBinaryMessage: decode failure yields an
"unknown" message with null data; a batch additionally produces the
per-record invocations before the batch envelope is returned. -/
def decodeBinaryMessage (reg : Registry) (d : Bytes) :
    List Invocation × WsMessage :=
  match BinaryDecoder.decode d with
  | none => ([], { type := "unknown", data := .nullData })
  | some dec =>
    match dec with
    | .batchPrice ps =>
      (batchRecordInvocations reg ps,
       { type := "batch_price", data := .batchVal ps })
    | _ => ([], { type := dec.typeName, data := dec.dataVal })

/-- WebSocketService.handleMessage on a binary frame: decode (with the
batch fan-out), the pong short-circuit (a binary envelope never has
type "pong"), then handlers registered for the exact message type
followed by handlers registered under the wildcard key "*". -/
def handleBinaryMessage (reg : Registry) (d : Bytes) : List Invocation :=
  let pm := decodeBinaryMessage reg d
  if pm.2.type == "pong" then pm.1
  else
    pm.1 ++ (handlersFor reg pm.2.type).map (fun h => (pm.2.type, h, pm.2))
         ++ (handlersFor reg "*").map (fun h => ("*", h, pm.2))

/-- Messages delivered to the handler registered as (key, h), in
delivery order. -/
def msgsTo (tr : List Invocation) (key : String) (h : Nat) :
    List WsMessage :=
  (tr.filter (fun inv => inv.1 == key && inv.2.1 == h)).map
    (fun inv => inv.2.2)

/-! WebSocketService send queue (`queueMessage`, `sendQueuedMessages`,
`send`).  Messages are abstract (naturals). -/

/-- WS_CONFIG.MESSAGE_QUEUE_MAX_SIZE. -/
def MESSAGE_QUEUE_MAX_SIZE : Nat := 1000

/-- WebSocketService.queueMessage: when the queue has reached the
configured maximum, shift the oldest entry out, then push. -/
def queueMessage (q : List Nat) (m : Nat) : List Nat :=
  (if MESSAGE_QUEUE_MAX_SIZE ≤ q.length then q.drop 1 else q) ++ [m]

/-- Connection-relevant state for send/flush: whether
`ws.readyState === OPEN`, the pending queue, and the transmitted log. -/
structure SendState where
  wsOpen : Bool
  messageQueue : List Nat
  transmitted : List Nat
deriving DecidableEq

/-- WebSocketService.send: transmit when open, queue otherwise. -/
def send (s : SendState) (m : Nat) : SendState :=
  if s.wsOpen then { s with transmitted := s.transmitted ++ [m] }
  else { s with messageQueue := queueMessage s.messageQueue m }

/-- WebSocketService.sendQueuedMessages: snapshot the queue, clear it,
then re-send every entry in order. -/
def sendQueuedMessages (s : SendState) : SendState :=
  if s.messageQueue.isEmpty then s
  else s.messageQueue.foldl send { s with messageQueue := [] }

/-! WebSocketService heartbeat (`startPingInterval`, the pong branch of
`handleMessage`).  `startPingInterval` declares a closure-local
`pongTimeout` variable, registers the interval, and then stores the
variable's current value (still undefined) on the interval object as
`_pongTimeout`; the interval callback later assigns fresh timeout
handles to the closure variable only.  The pong branch of
`handleMessage` reads `_pongTimeout` from the interval object.  Both
cells are therefore modelled separately.  Timers are (id, fire-time)
pairs; a pending force-close timer closes the socket (entering the
reconnect path) when it fires. -/

/-- WS_CONFIG.PONG_TIMEOUT. -/
def PONG_TIMEOUT : Nat := 5000

/-- Heartbeat-relevant state of the service. -/
structure HbState where
  wsOpen : Bool
  localPongTimeout : Option Nat
  pongTimeoutProp : Option Nat
  pendingForceClose : List (Nat × Nat)
  nextTimer : Nat
  lastPingTime : Nat
  latency : Nat
deriving DecidableEq

/-- WebSocketService.startPingInterval: the closure variable starts
undefined and its value at registration time is stored on the interval
object as `_pongTimeout`. -/
def startPingInterval (s : HbState) : HbState :=
  { s with localPongTimeout := none, pongTimeoutProp := none }

/-- One firing of the ping interval at wall-clock `now`: while open,
record the ping time, send the ping, and schedule a force-close timer
PONG_TIMEOUT later, storing its handle in the closure variable. -/
def pingTick (s : HbState) (now : Nat) : HbState :=
  if s.wsOpen then
    { s with
      lastPingTime := now,
      localPongTimeout := some s.nextTimer,
      pendingForceClose := s.pendingForceClose ++ [(s.nextTimer, now + PONG_TIMEOUT)],
      nextTimer := s.nextTimer + 1 }
  else s

/-- The pong branch of WebSocketService.handleMessage at wall-clock
`now`: update latency, and clear the timer whose handle is stored in
`_pongTimeout` on the interval object, when that property holds one. -/
def pongReceived (s : HbState) (now : Nat) : HbState :=
  let s1 := { s with latency := now - s.lastPingTime }
  match s1.pongTimeoutProp with
  | some tid =>
    { s1 with pendingForceClose := s1.pendingForceClose.filter (fun e => e.1 ≠ tid) }
  | none => s1

/-- Heartbeat events: an interval tick (which pings) or an inbound
pong, each stamped with wall-clock time. -/
inductive HbEvent where
  | ping (t : Nat)
  | pong (t : Nat)
deriving DecidableEq

/-- One heartbeat event applied to the state. -/
def hbStep (s : HbState) : HbEvent → HbState
  | .ping t => pingTick s t
  | .pong t => pongReceived s t

/-- A sequence of heartbeat events applied in order. -/
def hbRun (s : HbState) (es : List HbEvent) : HbState := es.foldl hbStep s

/-! WebSocketService reconnection backoff (`scheduleReconnect`) and
WS_CONFIG backoff constants. -/

/-- WS_CONFIG.MAX_RECONNECT_DELAY. -/
def MAX_RECONNECT_DELAY : Nat := 30000

/-- WS_CONFIG.RECONNECT_BACKOFF_FACTOR. -/
def RECONNECT_BACKOFF_FACTOR : Nat := 2

/-- WS_CONFIG.INITIAL_RECONNECT_DELAY, the default of
`config.reconnectDelay` and the value the singleton passes. -/
def INITIAL_RECONNECT_DELAY : Nat := 1000

/-- Pre-jitter delay computed by scheduleReconnect for the k-th
consecutive reconnect attempt (the attempt counter is incremented to k
before the delay is computed from exponent k - 1):
`Math.min(baseDelay * backoffFactor ** (attempts - 1), MAX_RECONNECT_DELAY)`. -/
def scheduleReconnectDelay (reconnectDelay k : Nat) : Nat :=
  min (reconnectDelay * RECONNECT_BACKOFF_FACTOR ^ (k - 1)) MAX_RECONNECT_DELAY

/-! WebSocketService.connect: the synchronous guard part of the
returned promise executor. -/

/-- State read by the guards at the top of connect. -/
structure ConnState where
  wsOpen : Bool
  isConnecting : Bool
  token : Option String
deriving DecidableEq

/-- How the connect call concluded its synchronous part. -/
inductive ConnOutcome where
  | resolvedEarly
  | rejectedNoToken
  | attemptStarted
deriving DecidableEq

/-- Observable result of the synchronous part of connect. -/
structure ConnResult where
  outcome : ConnOutcome
  attemptedNetwork : Bool
  errorNotified : Bool
  state : ConnState
deriving DecidableEq

/-- WebSocketService.connect, synchronous part: resolve immediately
when already open or already connecting; otherwise set isConnecting,
read the token, and either reject through handleError (no WebSocket is
constructed) or construct the WebSocket and start the attempt. -/
def connect (s : ConnState) : ConnResult :=
  if s.wsOpen then ⟨.resolvedEarly, false, false, s⟩
  else if s.isConnecting then ⟨.resolvedEarly, false, false, s⟩
  else
    match s.token with
    | none => ⟨.rejectedNoToken, false, true, { s with isConnecting := false }⟩
    | some _ => ⟨.attemptStarted, true, false, { s with isConnecting := true }⟩

end WebSocketService

/-! TradingView datafeed subscription bookkeeping
(`src/components/TradingChart/datafeed.ts`): the module-level
`subscribers` map keyed by subscriber UID, and the subscribe /
unsubscribe commands sent through the websocket service. -/

namespace Datafeed

/-- Outbound symbol commands sent through websocketService. -/
inductive Cmd where
  | subscribeCmd (sym : String)
  | unsubscribeCmd (sym : String)
deriving DecidableEq

/-- Datafeed state: subscribers map entries (uid, ticker) in insertion
order, and the log of sent commands. -/
structure DfState where
  subscribers : List (String × String)
  sent : List Cmd
deriving DecidableEq

/-- JS `Map.set`: replace in place when the key exists, append
otherwise. -/
def mapSet (l : List (String × String)) (k v : String) :
    List (String × String) :=
  if l.any (fun e => e.1 == k) then
    l.map (fun e => if e.1 == k then (k, v) else e)
  else l ++ [(k, v)]

/-- datafeed.subscribeBars for ticker `ticker` and subscriber UID
`uid`: tear down the UID's previous handler registrations (no command
is sent for that), send a subscribe command for the ticker
unconditionally, and record the subscriber. -/
def subscribeBars (s : DfState) (uid ticker : String) : DfState :=
  { subscribers := mapSet s.subscribers uid ticker,
    sent := s.sent ++ [Cmd.subscribeCmd ticker] }

/-- datafeed.unsubscribeBars for subscriber UID `uid`: when the UID is
known, tear down its handlers, and send an unsubscribe command for its
ticker only when no other subscriber entry holds the same ticker; then
delete the entry. -/
def unsubscribeBars (s : DfState) (uid : String) : DfState :=
  match s.subscribers.find? (fun e => e.1 == uid) with
  | none => s
  | some entry =>
    let ticker := entry.2
    let hasOther := s.subscribers.any fun e2 => e2.1 != uid && e2.2 == ticker
    { subscribers := s.subscribers.filter (fun e2 => e2.1 != uid),
      sent := if hasOther then s.sent else s.sent ++ [Cmd.unsubscribeCmd ticker] }

/-- Number of subscribe commands for `sym` in a command log. -/
def subCount (l : List Cmd) (sym : String) : Nat :=
  l.count (Cmd.subscribeCmd sym)

/-- Number of unsubscribe commands for `sym` in a command log. -/
def unsubCount (l : List Cmd) (sym : String) : Nat :=
  l.count (Cmd.unsubscribeCmd sym)

end Datafeed

/-! Frame constructions quantifying over the valid frames named by the
claims: a frame is the payload in the documented layout followed by the
little-endian CRC-32 of the payload. -/

/-- Every entry of a byte list is an actual byte. -/
abbrev isBytes (l : Bytes) : Prop := ∀ b ∈ l, b < 256

/-- One batch record to encode, for the four-double codec revision:
symbol bytes and the raw 8-byte little-endian encodings of the four
doubles. -/
structure RecordSpec where
  symbol : Bytes
  priceB : Bytes
  bidB : Bytes
  askB : Bytes
  volumeB : Bytes

/-- Well-formedness of a record to encode: byte-valued entries, symbol
length within its 2-byte field, 8 bytes per double. -/
abbrev RecordSpec.wf (r : RecordSpec) : Prop :=
  isBytes r.symbol ∧ r.symbol.length < 65536 ∧
  isBytes r.priceB ∧ r.priceB.length = 8 ∧
  isBytes r.bidB ∧ r.bidB.length = 8 ∧
  isBytes r.askB ∧ r.askB.length = 8 ∧
  isBytes r.volumeB ∧ r.volumeB.length = 8

/-- Wire encoding of one batch record: symbolLen, symbol, four doubles. -/
def RecordSpec.enc (r : RecordSpec) : Bytes :=
  le16 r.symbol.length ++ (r.symbol ++ (r.priceB ++ (r.bidB ++ (r.askB ++ r.volumeB))))

/-- The PriceData this record must decode to under the shared batch
timestamp. -/
def RecordSpec.expected (r : RecordSpec) (ts : Nat) : PriceData :=
  ⟨r.symbol, combineLE r.priceB, combineLE r.bidB, combineLE r.askB,
   combineLE r.volumeB, ts * 1000⟩

/-- Batch frame: type 0x8001 (batch flag | PriceUpdate), record count,
shared 4-byte timestamp, the records back to back, trailing CRC-32. -/
def mkBatchFrame (ts : Nat) (rs : List RecordSpec) : Bytes :=
  let payload :=
    le16 32769 ++ (le16 rs.length ++ (le32 ts ++ (rs.map RecordSpec.enc).flatten))
  payload ++ le32 (crc32 payload)

/-- The nine raw 8-byte double encodings of a PriceUpdate frame of the
nine-double codec revision, in wire order. -/
structure FieldsV2 where
  priceB : Bytes
  bidB : Bytes
  askB : Bytes
  volumeB : Bytes
  change24hB : Bytes
  changePercentB : Bytes
  open24hB : Bytes
  high24hB : Bytes
  low24hB : Bytes

/-- Well-formedness of the nine field encodings. -/
abbrev FieldsV2.wf (f : FieldsV2) : Prop :=
  isBytes f.priceB ∧ f.priceB.length = 8 ∧
  isBytes f.bidB ∧ f.bidB.length = 8 ∧
  isBytes f.askB ∧ f.askB.length = 8 ∧
  isBytes f.volumeB ∧ f.volumeB.length = 8 ∧
  isBytes f.change24hB ∧ f.change24hB.length = 8 ∧
  isBytes f.changePercentB ∧ f.changePercentB.length = 8 ∧
  isBytes f.open24hB ∧ f.open24hB.length = 8 ∧
  isBytes f.high24hB ∧ f.high24hB.length = 8 ∧
  isBytes f.low24hB ∧ f.low24hB.length = 8

/-- Concatenation of the nine field encodings in wire order. -/
def FieldsV2.enc (f : FieldsV2) : Bytes :=
  f.priceB ++ (f.bidB ++ (f.askB ++ (f.volumeB ++ (f.change24hB ++
    (f.changePercentB ++ (f.open24hB ++ (f.high24hB ++ f.low24hB)))))))

/-- PriceUpdate frame of the nine-double revision: type 0x0001,
symbolLen, 4-byte timestamp, symbol, nine doubles, trailing CRC-32. -/
def mkPriceFrameV2 (ts : Nat) (sym : Bytes) (f : FieldsV2) : Bytes :=
  let payload := le16 1 ++ (le16 sym.length ++ (le32 ts ++ (sym ++ f.enc)))
  payload ++ le32 (crc32 payload)

/-- The PriceDataV2 a well-formed nine-double frame must decode to. -/
def FieldsV2.expected (f : FieldsV2) (sym : Bytes) (ts : Nat) : PriceDataV2 :=
  ⟨sym, combineLE f.priceB, combineLE f.bidB, combineLE f.askB,
   combineLE f.volumeB, combineLE f.change24hB, combineLE f.changePercentB,
   combineLE f.open24hB, combineLE f.high24hB, combineLE f.low24hB, ts * 1000⟩

/-! Concrete frames used by the scenario claims. -/

/-- Payload of the concrete PriceUpdate frame of the scenario claim:
type 0x0001, symbolLen 7, timestamp 1700000000, symbol "BTCUSDT", then
the binary64 encodings of 65000.50, 65000.00, 65001.00 and 12.5. -/
def btcPayload : Bytes :=
  [1, 0, 7, 0, 0, 241, 83, 101, 66, 84, 67, 85, 83, 68, 84,
   0, 0, 0, 0, 16, 189, 239, 64,
   0, 0, 0, 0, 0, 189, 239, 64,
   0, 0, 0, 0, 32, 189, 239, 64,
   0, 0, 0, 0, 0, 0, 41, 64]

/-- The UTF-8 bytes of "BTCUSDT". -/
def btcSymbolBytes : Bytes := [66, 84, 67, 85, 83, 68, 84]

/-- The concrete valid PriceUpdate frame: payload plus its CRC-32. -/
def btcFrame : Bytes := btcPayload ++ le32 (crc32 btcPayload)

/-- A PriceUpdate frame whose trailing 4 bytes (zeros) do not match the
CRC-32 of the preceding bytes. -/
def badChecksumFrame : Bytes := btcPayload ++ [0, 0, 0, 0]

/-- Eight zero bytes: the binary64 encoding of 0.0. -/
def z8 : Bytes := [0, 0, 0, 0, 0, 0, 0, 0]

/-- A concrete batch record (symbol "B", all-zero doubles) used to
instantiate the batch claims. -/
def recC : RecordSpec := ⟨[66], z8, z8, z8, z8⟩

/-- A concrete handler registry: one price handler, one batch handler,
one wildcard handler. -/
def regC : WebSocketService.Registry :=
  [("price", 0), ("batch_price", 1), ("*", 2)]

/-- Concrete all-zero nine-double fields used to instantiate the
nine-double frame claim. -/
def fieldsC : FieldsV2 := ⟨z8, z8, z8, z8, z8, z8, z8, z8, z8⟩

/-! Helper lemmas: byte-level reads on structured frames. -/

theorem slice_at (pre mid suf : Bytes) :
    slice (pre ++ (mid ++ suf)) pre.length mid.length = mid := by
  unfold slice
  rw [List.drop_left, List.take_left]

theorem readN_at {d : Bytes} (pre mid suf : Bytes) {i n : Nat}
    (hd : d = pre ++ (mid ++ suf)) (hi : i = pre.length)
    (hn : n = mid.length) :
    readN d i n = some (combineLE mid) := by
  subst hd hi hn
  unfold readN
  rw [if_pos (by simp), slice_at]

theorem readU16_at {d : Bytes} (pre mid suf : Bytes) {i : Nat}
    (hd : d = pre ++ (mid ++ suf)) (hi : i = pre.length)
    (hn : mid.length = 2) :
    readU16 d i = some (combineLE mid) := by
  unfold readU16
  exact readN_at pre mid suf hd hi hn.symm

theorem readU32_at {d : Bytes} (pre mid suf : Bytes) {i : Nat}
    (hd : d = pre ++ (mid ++ suf)) (hi : i = pre.length)
    (hn : mid.length = 4) :
    readU32 d i = some (combineLE mid) := by
  unfold readU32
  exact readN_at pre mid suf hd hi hn.symm

theorem readF64_at {d : Bytes} (pre mid suf : Bytes) {i : Nat}
    (hd : d = pre ++ (mid ++ suf)) (hi : i = pre.length)
    (hn : mid.length = 8) :
    readF64 d i = some (combineLE mid) := by
  unfold readF64
  exact readN_at pre mid suf hd hi hn.symm

theorem readBytes_at {d : Bytes} (pre mid suf : Bytes) {i n : Nat}
    (hd : d = pre ++ (mid ++ suf)) (hi : i = pre.length)
    (hn : n = mid.length) :
    readBytes d i n = some mid := by
  subst hd hi hn
  unfold readBytes
  rw [if_pos (by simp), slice_at]

theorem combineLE_le16 {v : Nat} (h : v < 65536) : combineLE (le16 v) = v := by
  simp only [combineLE, le16, List.foldr]
  omega

theorem combineLE_le32 {v : Nat} (h : v < 4294967296) :
    combineLE (le32 v) = v := by
  simp only [combineLE, le32, List.foldr]
  omega

theorem length_le16 (v : Nat) : (le16 v).length = 2 := rfl

theorem length_le32 (v : Nat) : (le32 v).length = 4 := rfl

/-! Helper lemmas: CRC-32 range, GF(2)-linearity in the register, and
injectivity of the bit step, giving that a single corrupted byte always
changes the checksum. -/

theorem crcBitStep_lt {c : Nat} (h : c < 2 ^ 32) : crcBitStep c < 2 ^ 32 := by
  unfold crcBitStep
  split
  · exact Nat.xor_lt_two_pow (by omega) (by norm_num [crcPoly])
  · omega

theorem crcBitStep_iter_lt (k : Nat) {c : Nat} (h : c < 2 ^ 32) :
    crcBitStep^[k] c < 2 ^ 32 := by
  induction k with
  | zero => simpa using h
  | succ n ih => rw [Function.iterate_succ_apply']; exact crcBitStep_lt ih

theorem crcByteStep_lt {c b : Nat} (hc : c < 2 ^ 32) (hb : b < 256) :
    crcByteStep c b < 2 ^ 32 :=
  crcBitStep_iter_lt 8 (Nat.xor_lt_two_pow hc (by omega))

theorem foldl_crcByteStep_lt (l : Bytes) (hl : isBytes l) :
    ∀ {c : Nat}, c < 2 ^ 32 → l.foldl crcByteStep c < 2 ^ 32 := by
  induction l with
  | nil => intro c hc; simpa using hc
  | cons b t ih =>
    intro c hc
    have hb : b < 256 := hl b (List.mem_cons_self b t)
    exact ih (fun x hx => hl x (List.mem_cons_of_mem b hx)) (crcByteStep_lt hc hb)

theorem crc32_lt (l : Bytes) (hl : isBytes l) : crc32 l < 2 ^ 32 :=
  Nat.xor_lt_two_pow (foldl_crcByteStep_lt l hl (by norm_num)) (by norm_num)

theorem xor_div_two (a b : Nat) : (a ^^^ b) / 2 = a / 2 ^^^ b / 2 := by
  refine Nat.eq_of_testBit_eq fun i => ?_
  simp [Nat.testBit_div_two, Nat.testBit_xor]

theorem xor_xor_cancel (x p y : Nat) : x ^^^ p ^^^ (y ^^^ p) = x ^^^ y := by
  rw [Nat.xor_comm y p, ← Nat.xor_assoc, Nat.xor_assoc x p p, Nat.xor_self,
    Nat.xor_zero]

theorem crcBitStep_xor (a b : Nat) :
    crcBitStep (a ^^^ b) = crcBitStep a ^^^ crcBitStep b := by
  unfold crcBitStep
  rw [Nat.and_xor_distrib_right, Nat.and_one_is_mod, Nat.and_one_is_mod,
    xor_div_two]
  rcases Nat.mod_two_eq_zero_or_one a with ha | ha <;>
    rcases Nat.mod_two_eq_zero_or_one b with hb | hb <;> rw [ha, hb] <;> simp
  · exact Nat.xor_assoc _ _ _
  · rw [Nat.xor_assoc, Nat.xor_comm (b / 2) crcPoly, ← Nat.xor_assoc]
  · exact (xor_xor_cancel (a / 2) crcPoly (b / 2)).symm

theorem crcBitStep_iter_xor (k a b : Nat) :
    crcBitStep^[k] (a ^^^ b) = crcBitStep^[k] a ^^^ crcBitStep^[k] b := by
  induction k with
  | zero => simp
  | succ n ih =>
    rw [Function.iterate_succ_apply', Function.iterate_succ_apply',
      Function.iterate_succ_apply', ih, crcBitStep_xor]

theorem crcByteStep_xor_left (c e b : Nat) :
    crcByteStep (c ^^^ e) b = crcByteStep c b ^^^ crcBitStep^[8] e := by
  unfold crcByteStep
  have h : c ^^^ e ^^^ b = c ^^^ b ^^^ e := by
    rw [Nat.xor_assoc, Nat.xor_comm e b, ← Nat.xor_assoc]
  rw [h, crcBitStep_iter_xor]

theorem foldl_crcByteStep_xor (l : Bytes) :
    ∀ c e : Nat, l.foldl crcByteStep (c ^^^ e) =
      l.foldl crcByteStep c ^^^ crcBitStep^[8 * l.length] e := by
  induction l with
  | nil => intro c e; simp
  | cons b t ih =>
    intro c e
    have h8 : 8 * (b :: t).length = 8 * t.length + 8 := by
      simp [List.length_cons]; ring
    rw [List.foldl_cons, List.foldl_cons, crcByteStep_xor_left, ih, h8,
      Function.iterate_add_apply]

theorem crcBitStep_eq_zero {c : Nat} (h : c < 2 ^ 32)
    (hz : crcBitStep c = 0) : c = 0 := by
  unfold crcBitStep at hz
  rw [Nat.and_one_is_mod] at hz
  split at hz
  · have h2 : c / 2 = crcPoly := Nat.xor_eq_zero.mp hz
    have h3 : crcPoly = 3988292384 := rfl
    omega
  · omega

theorem crcBitStep_iter_ne_zero (k : Nat) {c : Nat} (hc : c < 2 ^ 32)
    (h0 : c ≠ 0) : crcBitStep^[k] c ≠ 0 := by
  induction k with
  | zero => simpa using h0
  | succ n ih =>
    rw [Function.iterate_succ_apply']
    intro hz
    exact ih (crcBitStep_eq_zero (crcBitStep_iter_lt n hc) hz)

theorem crc32_update (pre suf : Bytes) (x v : Nat) (hx : x < 2 ^ 32)
    (hv : v < 2 ^ 32) (hne : v ≠ x) :
    crc32 (pre ++ v :: suf) ≠ crc32 (pre ++ x :: suf) := by
  unfold crc32
  intro heq
  have hraw : (pre ++ v :: suf).foldl crcByteStep 0xFFFFFFFF =
      (pre ++ x :: suf).foldl crcByteStep 0xFFFFFFFF := by
    have := congrArg (· ^^^ 0xFFFFFFFF) heq
    simpa [Nat.xor_assoc] using this
  rw [List.foldl_append, List.foldl_append, List.foldl_cons,
    List.foldl_cons] at hraw
  set c := pre.foldl crcByteStep 0xFFFFFFFF with hc
  have hsplit : crcByteStep c v =
      crcByteStep c x ^^^ crcBitStep^[8] (x ^^^ v) := by
    unfold crcByteStep
    rw [show c ^^^ v = c ^^^ x ^^^ (x ^^^ v) by
          rw [Nat.xor_assoc c x, Nat.xor_cancel_left],
      crcBitStep_iter_xor]
  rw [hsplit, foldl_crcByteStep_xor] at hraw
  have hzero : crcBitStep^[8 * suf.length] (crcBitStep^[8] (x ^^^ v)) = 0 := by
    have := congrArg (fun t => suf.foldl crcByteStep (crcByteStep c x) ^^^ t)
      (rfl : suf.foldl crcByteStep (crcByteStep c x) ^^^
        crcBitStep^[8 * suf.length] (crcBitStep^[8] (x ^^^ v)) =
        suf.foldl crcByteStep (crcByteStep c x) ^^^
        crcBitStep^[8 * suf.length] (crcBitStep^[8] (x ^^^ v)))
    calc crcBitStep^[8 * suf.length] (crcBitStep^[8] (x ^^^ v))
        = suf.foldl crcByteStep (crcByteStep c x) ^^^
            (suf.foldl crcByteStep (crcByteStep c x) ^^^
              crcBitStep^[8 * suf.length] (crcBitStep^[8] (x ^^^ v))) := by
          rw [Nat.xor_cancel_left]
      _ = suf.foldl crcByteStep (crcByteStep c x) ^^^
            suf.foldl crcByteStep (crcByteStep c x) := by rw [hraw]
      _ = 0 := Nat.xor_self _
  have hxv : x ^^^ v ≠ 0 := fun h => hne (Nat.xor_eq_zero.mp h).symm
  have hxvlt : x ^^^ v < 2 ^ 32 := Nat.xor_lt_two_pow hx hv
  exact crcBitStep_iter_ne_zero (8 * suf.length)
    (crcBitStep_iter_lt 8 hxvlt)
    (crcBitStep_iter_ne_zero 8 hxvlt hxv) hzero

theorem crc32_set_ne (data : Bytes) (i v : Nat) (hi : i < data.length)
    (hx : data.getD i 0 < 256) (hv : v < 256)
    (hne : v ≠ data.getD i 0) :
    crc32 (data.set i v) ≠ crc32 data := by
  have hd : data = data.take i ++ data.getD i 0 :: data.drop (i + 1) := by
    rw [List.getD_eq_getElem data 0 hi]
    conv_lhs => rw [← List.take_append_drop i data,
      List.drop_eq_getElem_cons hi]
  have hs : data.set i v = data.take i ++ v :: data.drop (i + 1) :=
    List.set_eq_take_cons_drop v hi
  rw [hs]
  conv_rhs => rw [hd]
  exact crc32_update _ _ _ _ (by omega) (by omega) hne

theorem validateChecksum_mk (payload : Bytes) (hlen : 8 ≤ payload.length)
    (hb : isBytes payload) :
    validateChecksum (payload ++ le32 (crc32 payload)) = true := by
  unfold validateChecksum
  have hL : (payload ++ le32 (crc32 payload)).length = payload.length + 4 := by
    simp [le32]
  rw [hL]
  have hsize : payload.length + 4 - 4 = payload.length := by omega
  rw [hsize, if_neg (by omega)]
  rw [readU32_at payload (le32 (crc32 payload)) [] (by simp) rfl
    (length_le32 _)]
  rw [combineLE_le32 (crc32_lt payload hb), List.take_left]
  exact beq_self_eq_true _

theorem validateChecksum_corrupt (payload : Bytes)
    (hlen : 8 ≤ payload.length) (hb : isBytes payload) (i v : Nat)
    (hi : i < payload.length) (hv : v < 256)
    (hne : v ≠ payload.getD i 0) :
    validateChecksum ((payload ++ le32 (crc32 payload)).set i v) = false := by
  have hset : (payload ++ le32 (crc32 payload)).set i v =
      payload.set i v ++ le32 (crc32 payload) := by
    rw [List.set_append]
    simp [hi]
  rw [hset]
  unfold validateChecksum
  have hL : (payload.set i v ++ le32 (crc32 payload)).length =
      payload.length + 4 := by simp [le32]
  rw [hL]
  have hsize : payload.length + 4 - 4 = payload.length := by omega
  rw [hsize, if_neg (by omega)]
  have hplen : payload.length = (payload.set i v).length := by simp
  rw [readU32_at (payload.set i v) (le32 (crc32 payload)) [] (by simp) hplen
    (length_le32 _)]
  rw [combineLE_le32 (crc32_lt payload hb)]
  rw [hplen, List.take_left]
  have hneq : crc32 (payload.set i v) ≠ crc32 payload :=
    crc32_set_ne payload i v hi
      (hb _ (by rw [List.getD_eq_getElem payload 0 hi]
                exact List.getElem_mem hi)) hv hne
  simpa using fun h => hneq h.symm

/-! Helper lemmas: byte-valuedness of the encoders. -/

theorem isBytes_le16 (v : Nat) : isBytes (le16 v) := by
  intro b hb
  simp only [le16, List.mem_cons, List.not_mem_nil, or_false] at hb
  rcases hb with h | h <;> omega

theorem isBytes_le32 (v : Nat) : isBytes (le32 v) := by
  intro b hb
  simp only [le32, List.mem_cons, List.not_mem_nil, or_false] at hb
  rcases hb with h | h | h | h <;> omega

theorem isBytes_append {l₁ l₂ : Bytes} (h₁ : isBytes l₁) (h₂ : isBytes l₂) :
    isBytes (l₁ ++ l₂) := by
  intro b hb
  rcases List.mem_append.mp hb with h | h
  · exact h₁ b h
  · exact h₂ b h

theorem isBytes_record {r : RecordSpec} (h : r.wf) : isBytes r.enc := by
  obtain ⟨h1, _, h3, _, h5, _, h7, _, h9, _⟩ := h
  exact isBytes_append (isBytes_le16 _) (isBytes_append h1
    (isBytes_append h3 (isBytes_append h5 (isBytes_append h7 h9))))

theorem isBytes_flatten {ls : List Bytes} (h : ∀ l ∈ ls, isBytes l) :
    isBytes ls.flatten := by
  intro b hb
  rcases List.mem_flatten.mp hb with ⟨l, hl, hbl⟩
  exact h l hl b hbl

/-! Helper lemma: the batch record loop correctly decodes
back-to-back encoded records at any starting offset. -/

theorem parseRecords_enc (rs : List RecordSpec) :
    ∀ (pre suf : Bytes) (ts : Nat), (∀ r ∈ rs, r.wf) →
      BinaryDecoder.parseRecords
        (pre ++ ((rs.map RecordSpec.enc).flatten ++ suf))
        pre.length rs.length ts
        = some (rs.map (RecordSpec.expected · ts)) := by
  induction rs with
  | nil => intro pre suf ts _; rfl
  | cons r rs ih =>
    intro pre suf ts hwf
    obtain ⟨hsB, hsL, hpB, hpL, hbB, hbL, haB, haL, hvB, hvL⟩ :=
      hwf r (List.mem_cons_self r rs)
    have hd : pre ++ (((r :: rs).map RecordSpec.enc).flatten ++ suf) =
        pre ++ (le16 r.symbol.length ++ (r.symbol ++ (r.priceB ++ (r.bidB ++
          (r.askB ++ (r.volumeB ++ ((rs.map RecordSpec.enc).flatten ++ suf)))))))
        := by
      simp [RecordSpec.enc, List.append_assoc]
    rw [hd]
    set R : Bytes := (rs.map RecordSpec.enc).flatten ++ suf with hR
    rw [List.length_cons]
    rw [show BinaryDecoder.parseRecords
        (pre ++ (le16 r.symbol.length ++ (r.symbol ++ (r.priceB ++ (r.bidB ++
          (r.askB ++ (r.volumeB ++ R)))))))
        pre.length (rs.length + 1) ts =
      (match readU16 (pre ++ (le16 r.symbol.length ++ (r.symbol ++ (r.priceB ++
          (r.bidB ++ (r.askB ++ (r.volumeB ++ R))))))) pre.length with
      | none => none
      | some sl =>
        let d := pre ++ (le16 r.symbol.length ++ (r.symbol ++ (r.priceB ++
          (r.bidB ++ (r.askB ++ (r.volumeB ++ R))))))
        let off := pre.length
        match readBytes d (off + 2) sl, readF64 d (off + 2 + sl),
              readF64 d (off + 10 + sl), readF64 d (off + 18 + sl),
              readF64 d (off + 26 + sl) with
        | some sym, some p, some b, some a, some v =>
          match BinaryDecoder.parseRecords d (off + 34 + sl) rs.length ts with
          | none => none
          | some rest => some (⟨sym, p, b, a, v, ts * 1000⟩ :: rest)
        | _, _, _, _, _ => none) from rfl]
    rw [readU16_at pre (le16 r.symbol.length) _ rfl rfl (length_le16 _),
      combineLE_le16 hsL]
    simp only
    rw [readBytes_at (pre ++ le16 r.symbol.length) r.symbol
      (r.priceB ++ (r.bidB ++ (r.askB ++ (r.volumeB ++ R))))
      (by simp [List.append_assoc]) (by simp [le16]) rfl]
    rw [readF64_at (pre ++ le16 r.symbol.length ++ r.symbol) r.priceB
      (r.bidB ++ (r.askB ++ (r.volumeB ++ R)))
      (by simp [List.append_assoc]) (by simp [le16]; omega) hpL]
    rw [readF64_at (pre ++ le16 r.symbol.length ++ r.symbol ++ r.priceB)
      r.bidB (r.askB ++ (r.volumeB ++ R))
      (by simp [List.append_assoc]) (by simp [le16]; omega) hbL]
    rw [readF64_at
      (pre ++ le16 r.symbol.length ++ r.symbol ++ r.priceB ++ r.bidB)
      r.askB (r.volumeB ++ R)
      (by simp [List.append_assoc]) (by simp [le16]; omega) haL]
    rw [readF64_at
      (pre ++ le16 r.symbol.length ++ r.symbol ++ r.priceB ++ r.bidB ++ r.askB)
      r.volumeB R
      (by simp [List.append_assoc]) (by simp [le16]; omega) hvL]
    simp only
    rw [show pre ++ (le16 r.symbol.length ++ (r.symbol ++ (r.priceB ++
        (r.bidB ++ (r.askB ++ (r.volumeB ++ R)))))) =
      (pre ++ RecordSpec.enc r) ++ ((rs.map RecordSpec.enc).flatten ++ suf)
      from by simp [RecordSpec.enc, List.append_assoc, hR]]
    rw [show pre.length + 34 + r.symbol.length =
        (pre ++ RecordSpec.enc r).length from by
      simp [RecordSpec.enc, le16]
      omega]
    rw [ih (pre ++ RecordSpec.enc r) suf ts
      (fun x hx => hwf x (List.mem_cons_of_mem r hx))]
    simp [RecordSpec.expected]

/-- Decoding a well-formed batch frame yields exactly the encoded
records, in order. -/
theorem decodeBatchPriceUpdate_mk (ts : Nat) (rs : List RecordSpec)
    (hts : ts < 4294967296) (hcount : rs.length < 65536)
    (hwf : ∀ r ∈ rs, r.wf) :
    BinaryDecoder.decodeBatchPriceUpdate (mkBatchFrame ts rs) =
      rs.map (RecordSpec.expected · ts) := by
  have hBytes : isBytes
      (le16 32769 ++ (le16 rs.length ++ (le32 ts ++ (rs.map RecordSpec.enc).flatten))) :=
    isBytes_append (isBytes_le16 _) (isBytes_append (isBytes_le16 _)
      (isBytes_append (isBytes_le32 _)
        (isBytes_flatten (fun l hl => by
          rcases List.mem_map.mp hl with ⟨r, hr, rfl⟩
          exact isBytes_record (hwf r hr)))))
  have hlen : 8 ≤ (le16 32769 ++ (le16 rs.length ++ (le32 ts ++
      (rs.map RecordSpec.enc).flatten))).length := by
    rw [List.length_append, List.length_append, List.length_append,
      length_le16, length_le16, length_le32]
    omega
  show BinaryDecoder.decodeBatchPriceUpdate
      ((le16 32769 ++ (le16 rs.length ++ (le32 ts ++ (rs.map RecordSpec.enc).flatten))) ++
        le32 (crc32 (le16 32769 ++ (le16 rs.length ++ (le32 ts ++ (rs.map RecordSpec.enc).flatten))))) =
      rs.map (RecordSpec.expected · ts)
  unfold BinaryDecoder.decodeBatchPriceUpdate
  rw [validateChecksum_mk _ hlen hBytes]
  rw [if_neg (by decide : ¬(true = false))]
  rw [readU16_at []
    (le16 32769)
    (le16 rs.length ++ (le32 ts ++ ((rs.map RecordSpec.enc).flatten ++
      le32 (crc32 (le16 32769 ++ (le16 rs.length ++ (le32 ts ++ (rs.map RecordSpec.enc).flatten)))))))
    (by rw [List.nil_append]
        repeat rw [List.append_assoc])
    (show (0 : ℕ) = ([] : Bytes).length from rfl) (length_le16 _),
    combineLE_le16 (by norm_num)]
  simp only
  rw [if_neg (by decide : ¬(32769 &&& 32768 = 0))]
  rw [readU16_at (le16 32769)
    (le16 rs.length)
    (le32 ts ++ ((rs.map RecordSpec.enc).flatten ++
      le32 (crc32 (le16 32769 ++ (le16 rs.length ++ (le32 ts ++ (rs.map RecordSpec.enc).flatten))))))
    (by repeat rw [List.append_assoc])
    (show (2 : ℕ) = (le16 32769).length from rfl) (length_le16 _),
    combineLE_le16 hcount]
  rw [readU32_at (le16 32769 ++ le16 rs.length)
    (le32 ts)
    ((rs.map RecordSpec.enc).flatten ++
      le32 (crc32 (le16 32769 ++ (le16 rs.length ++ (le32 ts ++ (rs.map RecordSpec.enc).flatten)))))
    (by repeat rw [List.append_assoc])
    (show (4 : ℕ) = (le16 32769 ++ le16 rs.length).length from rfl)
    (length_le32 _),
    combineLE_le32 hts]
  simp only
  rw [show (le16 32769 ++ (le16 rs.length ++ (le32 ts ++ (rs.map RecordSpec.enc).flatten))) ++
        le32 (crc32 (le16 32769 ++ (le16 rs.length ++ (le32 ts ++ (rs.map RecordSpec.enc).flatten)))) =
      (le16 32769 ++ (le16 rs.length ++ le32 ts)) ++
        ((rs.map RecordSpec.enc).flatten ++
          le32 (crc32 (le16 32769 ++ (le16 rs.length ++ (le32 ts ++ (rs.map RecordSpec.enc).flatten)))))
      from by repeat rw [List.append_assoc]]
  rw [show (8 : ℕ) = (le16 32769 ++ (le16 rs.length ++ le32 ts)).length from rfl]
  rw [parseRecords_enc rs _ _ ts hwf]
  simp only [Option.getD_some]

/-- C8: for every valid PriceUpdate frame of the nine-double codec
revision, the decoder reads, after the symbol bytes, nine little-endian
8-byte doubles in the fixed order price, bid, ask, volume, change24h,
changePercent, open24h, high24h, low24h, and the decoded event carries
all nine fields (each embedded as its 64-bit pattern). -/
theorem C8_nine_doubles (ts : Nat) (sym : Bytes) (f : FieldsV2)
    (hts : ts < 4294967296) (hsym : isBytes sym)
    (hsymlen : sym.length < 65536) (hwf : f.wf) :
    BinaryDecoderV2.decodePriceUpdate (mkPriceFrameV2 ts sym f) =
      some (f.expected sym ts) := by
  obtain ⟨hB1, hL1, hB2, hL2, hB3, hL3, hB4, hL4, hB5, hL5, hB6, hL6, hB7, hL7, hB8, hL8, hB9, hL9⟩ := hwf
  have hBytes : isBytes (le16 1 ++ (le16 sym.length ++ (le32 ts ++ (sym ++ (f.priceB ++ (f.bidB ++ (f.askB ++ (f.volumeB ++ (f.change24hB ++ (f.changePercentB ++ (f.open24hB ++ (f.high24hB ++ (f.low24hB))))))))))))) :=
    isBytes_append (isBytes_le16 _) (isBytes_append (isBytes_le16 _) (isBytes_append (isBytes_le32 _) (isBytes_append hsym (isBytes_append hB1 (isBytes_append hB2 (isBytes_append hB3 (isBytes_append hB4 (isBytes_append hB5 (isBytes_append hB6 (isBytes_append hB7 (isBytes_append hB8 hB9)))))))))))
  have hlen : 8 ≤ (le16 1 ++ (le16 sym.length ++ (le32 ts ++ (sym ++ (f.priceB ++ (f.bidB ++ (f.askB ++ (f.volumeB ++ (f.change24hB ++ (f.changePercentB ++ (f.open24hB ++ (f.high24hB ++ (f.low24hB))))))))))))).length := by
    rw [List.length_append, List.length_append, List.length_append,
      length_le16, length_le16, length_le32]
    omega
  show BinaryDecoderV2.decodePriceUpdate ((le16 1 ++ (le16 sym.length ++ (le32 ts ++ (sym ++ (f.priceB ++ (f.bidB ++ (f.askB ++ (f.volumeB ++ (f.change24hB ++ (f.changePercentB ++ (f.open24hB ++ (f.high24hB ++ (f.low24hB))))))))))))) ++ le32 (crc32 (le16 1 ++ (le16 sym.length ++ (le32 ts ++ (sym ++ (f.priceB ++ (f.bidB ++ (f.askB ++ (f.volumeB ++ (f.change24hB ++ (f.changePercentB ++ (f.open24hB ++ (f.high24hB ++ (f.low24hB))))))))))))))) = some (f.expected sym ts)
  unfold BinaryDecoderV2.decodePriceUpdate
  rw [validateChecksum_mk _ hlen hBytes]
  rw [if_neg (by decide : ¬(true = false))]
  rw [readU16_at [] (le16 1)
    (le16 sym.length ++ (le32 ts ++ (sym ++ (f.priceB ++ (f.bidB ++ (f.askB ++ (f.volumeB ++ (f.change24hB ++ (f.changePercentB ++ (f.open24hB ++ (f.high24hB ++ (f.low24hB ++ (le32 (crc32 (le16 1 ++ (le16 sym.length ++ (le32 ts ++ (sym ++ (f.priceB ++ (f.bidB ++ (f.askB ++ (f.volumeB ++ (f.change24hB ++ (f.changePercentB ++ (f.open24hB ++ (f.high24hB ++ (f.low24hB)))))))))))))))))))))))))))
    (by rw [List.nil_append]
        repeat rw [List.append_assoc])
    (show (0 : ℕ) = ([] : Bytes).length from rfl) (length_le16 _),
    combineLE_le16 (by norm_num)]
  simp only
  rw [if_neg (by decide : ¬((1 : ℕ) ≠ 1))]
  rw [readU16_at (le16 1) (le16 sym.length)
    (le32 ts ++ (sym ++ (f.priceB ++ (f.bidB ++ (f.askB ++ (f.volumeB ++ (f.change24hB ++ (f.changePercentB ++ (f.open24hB ++ (f.high24hB ++ (f.low24hB ++ (le32 (crc32 (le16 1 ++ (le16 sym.length ++ (le32 ts ++ (sym ++ (f.priceB ++ (f.bidB ++ (f.askB ++ (f.volumeB ++ (f.change24hB ++ (f.changePercentB ++ (f.open24hB ++ (f.high24hB ++ (f.low24hB))))))))))))))))))))))))))
    (by repeat rw [List.append_assoc])
    (show (2 : ℕ) = (le16 1).length from rfl) (length_le16 _),
    combineLE_le16 hsymlen]
  rw [readU32_at (le16 1 ++ le16 sym.length) (le32 ts)
    (sym ++ (f.priceB ++ (f.bidB ++ (f.askB ++ (f.volumeB ++ (f.change24hB ++ (f.changePercentB ++ (f.open24hB ++ (f.high24hB ++ (f.low24hB ++ (le32 (crc32 (le16 1 ++ (le16 sym.length ++ (le32 ts ++ (sym ++ (f.priceB ++ (f.bidB ++ (f.askB ++ (f.volumeB ++ (f.change24hB ++ (f.changePercentB ++ (f.open24hB ++ (f.high24hB ++ (f.low24hB)))))))))))))))))))))))))
    (by repeat rw [List.append_assoc])
    (show (4 : ℕ) = (le16 1 ++ le16 sym.length).length from rfl) (length_le32 _),
    combineLE_le32 hts]
  simp only
  rw [readBytes_at (le16 1 ++ le16 sym.length ++ le32 ts) sym
    (f.priceB ++ (f.bidB ++ (f.askB ++ (f.volumeB ++ (f.change24hB ++ (f.changePercentB ++ (f.open24hB ++ (f.high24hB ++ (f.low24hB ++ (le32 (crc32 (le16 1 ++ (le16 sym.length ++ (le32 ts ++ (sym ++ (f.priceB ++ (f.bidB ++ (f.askB ++ (f.volumeB ++ (f.change24hB ++ (f.changePercentB ++ (f.open24hB ++ (f.high24hB ++ (f.low24hB))))))))))))))))))))))))
    (by repeat rw [List.append_assoc])
    (show (8 : ℕ) = (le16 1 ++ le16 sym.length ++ le32 ts).length from rfl) rfl]
  rw [readF64_at (le16 1 ++ le16 sym.length ++ le32 ts ++ sym) f.priceB
    (f.bidB ++ (f.askB ++ (f.volumeB ++ (f.change24hB ++ (f.changePercentB ++ (f.open24hB ++ (f.high24hB ++ (f.low24hB ++ (le32 (crc32 (le16 1 ++ (le16 sym.length ++ (le32 ts ++ (sym ++ (f.priceB ++ (f.bidB ++ (f.askB ++ (f.volumeB ++ (f.change24hB ++ (f.changePercentB ++ (f.open24hB ++ (f.high24hB ++ (f.low24hB)))))))))))))))))))))))
    (by repeat rw [List.append_assoc])
    (by rw [List.length_append, show (le16 1 ++ le16 sym.length ++ le32 ts).length = 8 from rfl])
    hL1]
  rw [readF64_at (le16 1 ++ le16 sym.length ++ le32 ts ++ sym ++ f.priceB) f.bidB
    (f.askB ++ (f.volumeB ++ (f.change24hB ++ (f.changePercentB ++ (f.open24hB ++ (f.high24hB ++ (f.low24hB ++ (le32 (crc32 (le16 1 ++ (le16 sym.length ++ (le32 ts ++ (sym ++ (f.priceB ++ (f.bidB ++ (f.askB ++ (f.volumeB ++ (f.change24hB ++ (f.changePercentB ++ (f.open24hB ++ (f.high24hB ++ (f.low24hB))))))))))))))))))))))
    (by repeat rw [List.append_assoc])
    (by rw [List.length_append, List.length_append, show (le16 1 ++ le16 sym.length ++ le32 ts).length = 8 from rfl, hL1]
        omega)
    hL2]
  rw [readF64_at (le16 1 ++ le16 sym.length ++ le32 ts ++ sym ++ f.priceB ++ f.bidB) f.askB
    (f.volumeB ++ (f.change24hB ++ (f.changePercentB ++ (f.open24hB ++ (f.high24hB ++ (f.low24hB ++ (le32 (crc32 (le16 1 ++ (le16 sym.length ++ (le32 ts ++ (sym ++ (f.priceB ++ (f.bidB ++ (f.askB ++ (f.volumeB ++ (f.change24hB ++ (f.changePercentB ++ (f.open24hB ++ (f.high24hB ++ (f.low24hB)))))))))))))))))))))
    (by repeat rw [List.append_assoc])
    (by rw [List.length_append, List.length_append, List.length_append, show (le16 1 ++ le16 sym.length ++ le32 ts).length = 8 from rfl, hL1, hL2]
        omega)
    hL3]
  rw [readF64_at (le16 1 ++ le16 sym.length ++ le32 ts ++ sym ++ f.priceB ++ f.bidB ++ f.askB) f.volumeB
    (f.change24hB ++ (f.changePercentB ++ (f.open24hB ++ (f.high24hB ++ (f.low24hB ++ (le32 (crc32 (le16 1 ++ (le16 sym.length ++ (le32 ts ++ (sym ++ (f.priceB ++ (f.bidB ++ (f.askB ++ (f.volumeB ++ (f.change24hB ++ (f.changePercentB ++ (f.open24hB ++ (f.high24hB ++ (f.low24hB))))))))))))))))))))
    (by repeat rw [List.append_assoc])
    (by rw [List.length_append, List.length_append, List.length_append, List.length_append, show (le16 1 ++ le16 sym.length ++ le32 ts).length = 8 from rfl, hL1, hL2, hL3]
        omega)
    hL4]
  simp only
  rw [readF64_at (le16 1 ++ le16 sym.length ++ le32 ts ++ sym ++ f.priceB ++ f.bidB ++ f.askB ++ f.volumeB) f.change24hB
    (f.changePercentB ++ (f.open24hB ++ (f.high24hB ++ (f.low24hB ++ (le32 (crc32 (le16 1 ++ (le16 sym.length ++ (le32 ts ++ (sym ++ (f.priceB ++ (f.bidB ++ (f.askB ++ (f.volumeB ++ (f.change24hB ++ (f.changePercentB ++ (f.open24hB ++ (f.high24hB ++ (f.low24hB)))))))))))))))))))
    (by repeat rw [List.append_assoc])
    (by rw [List.length_append, List.length_append, List.length_append, List.length_append, List.length_append, show (le16 1 ++ le16 sym.length ++ le32 ts).length = 8 from rfl, hL1, hL2, hL3, hL4]
        omega)
    hL5]
  rw [readF64_at (le16 1 ++ le16 sym.length ++ le32 ts ++ sym ++ f.priceB ++ f.bidB ++ f.askB ++ f.volumeB ++ f.change24hB) f.changePercentB
    (f.open24hB ++ (f.high24hB ++ (f.low24hB ++ (le32 (crc32 (le16 1 ++ (le16 sym.length ++ (le32 ts ++ (sym ++ (f.priceB ++ (f.bidB ++ (f.askB ++ (f.volumeB ++ (f.change24hB ++ (f.changePercentB ++ (f.open24hB ++ (f.high24hB ++ (f.low24hB))))))))))))))))))
    (by repeat rw [List.append_assoc])
    (by rw [List.length_append, List.length_append, List.length_append, List.length_append, List.length_append, List.length_append, show (le16 1 ++ le16 sym.length ++ le32 ts).length = 8 from rfl, hL1, hL2, hL3, hL4, hL5]
        omega)
    hL6]
  rw [readF64_at (le16 1 ++ le16 sym.length ++ le32 ts ++ sym ++ f.priceB ++ f.bidB ++ f.askB ++ f.volumeB ++ f.change24hB ++ f.changePercentB) f.open24hB
    (f.high24hB ++ (f.low24hB ++ (le32 (crc32 (le16 1 ++ (le16 sym.length ++ (le32 ts ++ (sym ++ (f.priceB ++ (f.bidB ++ (f.askB ++ (f.volumeB ++ (f.change24hB ++ (f.changePercentB ++ (f.open24hB ++ (f.high24hB ++ (f.low24hB)))))))))))))))))
    (by repeat rw [List.append_assoc])
    (by rw [List.length_append, List.length_append, List.length_append, List.length_append, List.length_append, List.length_append, List.length_append, show (le16 1 ++ le16 sym.length ++ le32 ts).length = 8 from rfl, hL1, hL2, hL3, hL4, hL5, hL6]
        omega)
    hL7]
  rw [readF64_at (le16 1 ++ le16 sym.length ++ le32 ts ++ sym ++ f.priceB ++ f.bidB ++ f.askB ++ f.volumeB ++ f.change24hB ++ f.changePercentB ++ f.open24hB) f.high24hB
    (f.low24hB ++ (le32 (crc32 (le16 1 ++ (le16 sym.length ++ (le32 ts ++ (sym ++ (f.priceB ++ (f.bidB ++ (f.askB ++ (f.volumeB ++ (f.change24hB ++ (f.changePercentB ++ (f.open24hB ++ (f.high24hB ++ (f.low24hB))))))))))))))))
    (by repeat rw [List.append_assoc])
    (by rw [List.length_append, List.length_append, List.length_append, List.length_append, List.length_append, List.length_append, List.length_append, List.length_append, show (le16 1 ++ le16 sym.length ++ le32 ts).length = 8 from rfl, hL1, hL2, hL3, hL4, hL5, hL6, hL7]
        omega)
    hL8]
  rw [readF64_at (le16 1 ++ le16 sym.length ++ le32 ts ++ sym ++ f.priceB ++ f.bidB ++ f.askB ++ f.volumeB ++ f.change24hB ++ f.changePercentB ++ f.open24hB ++ f.high24hB) f.low24hB
    (le32 (crc32 (le16 1 ++ (le16 sym.length ++ (le32 ts ++ (sym ++ (f.priceB ++ (f.bidB ++ (f.askB ++ (f.volumeB ++ (f.change24hB ++ (f.changePercentB ++ (f.open24hB ++ (f.high24hB ++ (f.low24hB)))))))))))))))
    (by repeat rw [List.append_assoc])
    (by rw [List.length_append, List.length_append, List.length_append, List.length_append, List.length_append, List.length_append, List.length_append, List.length_append, List.length_append, show (le16 1 ++ le16 sym.length ++ le32 ts).length = 8 from rfl, hL1, hL2, hL3, hL4, hL5, hL6, hL7, hL8]
        omega)
    hL9]
  simp only [FieldsV2.expected]


/-! Queue lemmas for the pending message queue. -/

namespace WebSocketService

theorem queueMessage_length_le {q : List Nat} {m : Nat}
    (h : q.length ≤ MESSAGE_QUEUE_MAX_SIZE) :
    (queueMessage q m).length ≤ MESSAGE_QUEUE_MAX_SIZE := by
  unfold queueMessage
  split
  · rw [List.length_append, List.length_drop]
    simp only [List.length_cons, List.length_nil]
    unfold MESSAGE_QUEUE_MAX_SIZE at *
    omega
  · rw [List.length_append]
    simp only [List.length_cons, List.length_nil]
    unfold MESSAGE_QUEUE_MAX_SIZE at *
    omega

theorem foldl_send_closed (ms : List Nat) :
    ∀ (q tr : List Nat), q.length ≤ MESSAGE_QUEUE_MAX_SIZE →
      (ms.foldl send ⟨false, q, tr⟩).wsOpen = false ∧
      (ms.foldl send ⟨false, q, tr⟩).transmitted = tr ∧
      (ms.foldl send ⟨false, q, tr⟩).messageQueue.length ≤ MESSAGE_QUEUE_MAX_SIZE := by
  induction ms with
  | nil => intro q tr h; exact ⟨rfl, rfl, h⟩
  | cons m t ih =>
    intro q tr h
    have hstep : send ⟨false, q, tr⟩ m = ⟨false, queueMessage q m, tr⟩ := by
      unfold send
      rw [if_neg (by simp)]
    rw [List.foldl_cons, hstep]
    exact ih (queueMessage q m) tr (queueMessage_length_le h)

theorem foldl_send_open (q : List Nat) :
    ∀ tr : List Nat, q.foldl send ⟨true, [], tr⟩ = ⟨true, [], tr ++ q⟩ := by
  induction q with
  | nil => intro tr; simp
  | cons m t ih =>
    intro tr
    have hstep : send ⟨true, [], tr⟩ m = ⟨true, [], tr ++ [m]⟩ := by
      unfold send
      rw [if_pos rfl]
    rw [List.foldl_cons, hstep, ih (tr ++ [m]), List.append_assoc]
    rfl

end WebSocketService

/-! Datafeed reference-counting lemmas. -/

namespace Datafeed

theorem foldl_subscribe (uids : List String) (sym : String) :
    ∀ (s : DfState), uids.Nodup →
      (∀ u ∈ uids, ∀ e ∈ s.subscribers, e.1 ≠ u) →
      uids.foldl (fun st u => subscribeBars st u sym) s =
        ⟨s.subscribers ++ uids.map (fun u => (u, sym)),
         s.sent ++ uids.map (fun _ => Cmd.subscribeCmd sym)⟩ := by
  induction uids with
  | nil => intro s _ _; simp
  | cons u t ih =>
    intro s hnd hdisj
    have hnotin : (s.subscribers.any (fun e => e.1 == u)) = false := by
      rw [List.any_eq_false]
      intro e he
      simpa using hdisj u (List.mem_cons_self u t) e he
    have hstep : subscribeBars s u sym =
        ⟨s.subscribers ++ [(u, sym)], s.sent ++ [Cmd.subscribeCmd sym]⟩ := by
      unfold subscribeBars mapSet
      rw [hnotin]
      simp
    rw [List.foldl_cons, hstep,
      ih ⟨s.subscribers ++ [(u, sym)], s.sent ++ [Cmd.subscribeCmd sym]⟩
        (List.Nodup.of_cons hnd)
        (by
          intro x hx e he
          rcases List.mem_append.mp he with h1 | h1
          · exact hdisj x (List.mem_cons_of_mem u hx) e h1
          · rcases List.mem_singleton.mp h1 with rfl
            have : u ≠ x := by
              intro hux
              rw [hux] at hnd
              exact (List.nodup_cons.mp hnd).1 hx
            simpa using this)]
    simp [List.append_assoc]

theorem foldl_release (l : List String) (keep sym : String) :
    ∀ sent : List Cmd, (l ++ [keep]).Nodup →
      l.foldl unsubscribeBars
          ⟨l.map (fun u => (u, sym)) ++ [(keep, sym)], sent⟩ =
        ⟨[(keep, sym)], sent⟩ := by
  induction l with
  | nil => intro sent _; simp
  | cons u t ih =>
    intro sent hnd
    have hukeep : u ≠ keep := by
      have := (List.nodup_cons.mp hnd).1
      intro h
      exact this (by rw [h]; exact List.mem_append_right _ (List.mem_singleton_self keep))
    have hut : u ∉ t := by
      have := (List.nodup_cons.mp hnd).1
      intro h
      exact this (List.mem_append_left _ h)
    have hfind : (((u :: t).map (fun x => (x, sym)) ++ [(keep, sym)]).find?
        (fun e => e.1 == u)) = some (u, sym) := by
      simp [List.find?]
    have hother : (((u :: t).map (fun x => (x, sym)) ++ [(keep, sym)]).any
        (fun e2 => e2.1 != u && e2.2 == sym)) = true := by
      rw [List.any_eq_true]
      refine ⟨(keep, sym), List.mem_append_right _ (List.mem_singleton_self _), ?_⟩
      simp [Ne.symm hukeep]
    have hfilter : (((u :: t).map (fun x => (x, sym)) ++ [(keep, sym)]).filter
        (fun e2 => e2.1 != u)) = t.map (fun x => (x, sym)) ++ [(keep, sym)] := by
      rw [List.filter_append]
      congr 1
      · rw [List.map_cons, List.filter_cons]
        simp only [bne_self_eq_false, Bool.false_eq_true, if_false]
        rw [List.filter_eq_self.mpr]
        intro e he
        rcases List.mem_map.mp he with ⟨x, hx, rfl⟩
        have : x ≠ u := fun h => hut (h ▸ hx)
        simpa using this
      · rw [List.filter_eq_self.mpr]
        intro e he
        rcases List.mem_singleton.mp he with rfl
        simpa using Ne.symm hukeep
    have hstep : unsubscribeBars
        ⟨(u :: t).map (fun x => (x, sym)) ++ [(keep, sym)], sent⟩ u =
        ⟨t.map (fun x => (x, sym)) ++ [(keep, sym)], sent⟩ := by
      unfold unsubscribeBars
      rw [hfind]
      simp only
      rw [hother, hfilter]
      simp
    rw [List.foldl_cons, hstep, ih sent (List.Nodup.of_cons hnd)]

theorem unsubscribe_last (keep sym : String) (sent : List Cmd) :
    unsubscribeBars ⟨[(keep, sym)], sent⟩ keep =
      ⟨[], sent ++ [Cmd.unsubscribeCmd sym]⟩ := by
  unfold unsubscribeBars
  have hfind : (([(keep, sym)] : List (String × String)).find?
      (fun e => e.1 == keep)) = some (keep, sym) := by
    simp [List.find?]
  rw [hfind]
  simp [List.filter]

end Datafeed

/-! Claim theorems. -/

open WebSocketService Datafeed

/-- C5: for every reconnect attempt number k ≥ 1, the pre-jitter delay
equals min(maxDelay, initialDelay × backoffFactor^(k−1)), the delay
sequence is monotonically non-decreasing in the attempt number, and it
never exceeds maxDelay (so it clamps there). -/
theorem C5_backoff (d j k : Nat) (hj : 1 ≤ j) (hjk : j ≤ k) :
    scheduleReconnectDelay d k =
      min MAX_RECONNECT_DELAY (d * RECONNECT_BACKOFF_FACTOR ^ (k - 1)) ∧
    scheduleReconnectDelay d j ≤ scheduleReconnectDelay d k ∧
    scheduleReconnectDelay d k ≤ MAX_RECONNECT_DELAY := by
  refine ⟨Nat.min_comm _ _, ?_, Nat.min_le_right _ _⟩
  unfold scheduleReconnectDelay
  have hpow : d * RECONNECT_BACKOFF_FACTOR ^ (j - 1) ≤
      d * RECONNECT_BACKOFF_FACTOR ^ (k - 1) :=
    Nat.mul_le_mul_left d
      (Nat.pow_le_pow_right (by norm_num [RECONNECT_BACKOFF_FACTOR]) (by omega))
  exact min_le_min hpow (le_refl _)

/-- C5 witness at the singleton configuration values: attempt 1 then
attempt 3. -/
theorem C5_backoff_witness :
    scheduleReconnectDelay 1000 3 =
      min MAX_RECONNECT_DELAY (1000 * RECONNECT_BACKOFF_FACTOR ^ (3 - 1)) ∧
    scheduleReconnectDelay 1000 1 ≤ scheduleReconnectDelay 1000 3 ∧
    scheduleReconnectDelay 1000 3 ≤ MAX_RECONNECT_DELAY :=
  C5_backoff 1000 1 3 (by decide) (by decide)

/-- C6: the pending queue never exceeds the configured maximum under any
sequence of sends performed while the session is not open (none of which
transmit); once the queue is full each further enqueue drops the oldest
entry first; and when the session is open the queue is drained in FIFO
order and left empty. -/
theorem C6_queue (ms : List Nat) (q tr : List Nat) (m : Nat)
    (hq : q.length ≤ MESSAGE_QUEUE_MAX_SIZE)
    (hfull : q.length = MESSAGE_QUEUE_MAX_SIZE) :
    ((ms.foldl send ⟨false, q, tr⟩).messageQueue.length ≤ MESSAGE_QUEUE_MAX_SIZE ∧
     (ms.foldl send ⟨false, q, tr⟩).transmitted = tr) ∧
    queueMessage q m = q.drop 1 ++ [m] ∧
    (∀ s : SendState, s.wsOpen = true →
      sendQueuedMessages s = ⟨true, [], s.transmitted ++ s.messageQueue⟩) := by
  refine ⟨⟨(foldl_send_closed ms q tr hq).2.2, (foldl_send_closed ms q tr hq).2.1⟩, ?_, ?_⟩
  · unfold queueMessage
    rw [if_pos (by omega)]
  · intro s hs
    unfold sendQueuedMessages
    rcases s with ⟨o, mq, str⟩
    simp only at hs
    subst hs
    split
    · rename_i hempty
      rw [List.isEmpty_iff] at hempty
      subst hempty
      simp
    · exact foldl_send_open mq str

/-- C6 witness: a full queue of 1000 entries, one more enqueue while
closed, and a drain from an open session. -/
theorem C6_queue_witness :
    ((([5].foldl send ⟨false, List.replicate 1000 7, [9]⟩).messageQueue.length ≤
        MESSAGE_QUEUE_MAX_SIZE ∧
      ([5].foldl send ⟨false, List.replicate 1000 7, [9]⟩).transmitted = [9]) ∧
     queueMessage (List.replicate 1000 7) 5 =
       (List.replicate 1000 7).drop 1 ++ [5] ∧
     (∀ s : SendState, s.wsOpen = true →
       sendQueuedMessages s = ⟨true, [], s.transmitted ++ s.messageQueue⟩)) :=
  C6_queue [5] (List.replicate 1000 7) [9] 5 (by decide) (by decide)

/-- C9: connect with no bearer token rejects immediately, notifies the
error channel, and performs no network attempt; connect while already
open, or while a connection attempt is already in progress, resolves
without a new network attempt. -/
theorem C9_connect (s : ConnState) :
    (s.wsOpen = false → s.isConnecting = false → s.token = none →
      connect s = ⟨.rejectedNoToken, false, true, { s with isConnecting := false }⟩) ∧
    (s.wsOpen = true → connect s = ⟨.resolvedEarly, false, false, s⟩) ∧
    (s.wsOpen = false → s.isConnecting = true →
      connect s = ⟨.resolvedEarly, false, false, s⟩) := by
  refine ⟨?_, ?_, ?_⟩
  · intro h1 h2 h3
    unfold connect
    rw [h1, h3]
    simp [h2]
  · intro h1
    unfold connect
    rw [h1]
    simp
  · intro h1 h2
    unfold connect
    rw [h1, h2]
    simp

/-- C9 witness: the no-token state and the already-connecting state. -/
theorem C9_connect_witness :
    connect ⟨false, false, none⟩ =
      ⟨.rejectedNoToken, false, true, ⟨false, false, none⟩⟩ ∧
    connect ⟨false, true, some "tok"⟩ =
      ⟨.resolvedEarly, false, false, ⟨false, true, some "tok"⟩⟩ :=
  ⟨(C9_connect ⟨false, false, none⟩).1 rfl rfl rfl,
   (C9_connect ⟨false, true, some "tok"⟩).2.2 rfl rfl⟩

/-- C1: the claim says a pong received within the pong-timeout window
cancels the pending forced close.  In the code, startPingInterval stores
the closure variable on the interval object before any ping has run, so
the stored handle is permanently undefined and the pong branch never
clears the live force-close timer: after a ping at time 0 and a pong at
time 1000 (well inside the 5000 ms window), the force-close timer
scheduled for time 5000 is still pending and the stored handle is still
none, so the socket is force-closed despite the timely pong. -/
theorem C1_pong_timeout_not_cancelled :
    (hbRun (startPingInterval ⟨true, none, none, [], 0, 0, 0⟩)
        [.ping 0, .pong 1000]).pendingForceClose = [(0, PONG_TIMEOUT)] ∧
    (hbRun (startPingInterval ⟨true, none, none, [], 0, 0, 0⟩)
        [.ping 0, .pong 1000]).pongTimeoutProp = none := by
  decide

/-- C4 counterexample: two subscribers acquire "ETHUSDT" and one
releases; the code has sent two subscribe commands, not exactly one as
the claim states (and, as the claim also says, no unsubscribe yet). -/
theorem C4_counterexample :
    subCount (unsubscribeBars
        (subscribeBars (subscribeBars ⟨[], []⟩ "a" "ETHUSDT") "b" "ETHUSDT")
        "a").sent "ETHUSDT" = 2 ∧
    unsubCount (unsubscribeBars
        (subscribeBars (subscribeBars ⟨[], []⟩ "a" "ETHUSDT") "b" "ETHUSDT")
        "a").sent "ETHUSDT" = 0 := by
  decide

/-- C4 amended: acquiring a symbol with N distinct subscriber UIDs sends
one subscribe command per acquisition (N in total) and no unsubscribe;
releasing N−1 of them sends no further command and leaves the symbol
subscribed; the Nth release sends exactly one unsubscribe command. -/
theorem C4_amended (us : List String) (u sym : String)
    (hnd : (us ++ [u]).Nodup) :
    ((us ++ [u]).foldl (fun st x => subscribeBars st x sym) ⟨[], []⟩).sent =
      (us ++ [u]).map (fun _ => Cmd.subscribeCmd sym) ∧
    (us.foldl unsubscribeBars
        ((us ++ [u]).foldl (fun st x => subscribeBars st x sym) ⟨[], []⟩)) =
      ⟨[(u, sym)], (us ++ [u]).map (fun _ => Cmd.subscribeCmd sym)⟩ ∧
    unsubscribeBars
        (us.foldl unsubscribeBars
          ((us ++ [u]).foldl (fun st x => subscribeBars st x sym) ⟨[], []⟩)) u =
      ⟨[], (us ++ [u]).map (fun _ => Cmd.subscribeCmd sym) ++
            [Cmd.unsubscribeCmd sym]⟩ := by
  have hsub := foldl_subscribe (us ++ [u]) sym ⟨[], []⟩ hnd
    (by intro x _ e he; simp at he)
  rw [hsub]
  simp only [List.nil_append]
  have hmap : (us ++ [u]).map (fun x => (x, sym)) =
      us.map (fun x => (x, sym)) ++ [(u, sym)] := by
    rw [List.map_append]
    rfl
  have hrel := foldl_release us u sym
    ((us ++ [u]).map (fun _ => Cmd.subscribeCmd sym)) hnd
  refine ⟨by simp, ?_, ?_⟩
  · rw [show (⟨(us ++ [u]).map (fun x => (x, sym)),
        (us ++ [u]).map (fun _ => Cmd.subscribeCmd sym)⟩ : DfState) =
      ⟨us.map (fun x => (x, sym)) ++ [(u, sym)],
        (us ++ [u]).map (fun _ => Cmd.subscribeCmd sym)⟩ from by rw [hmap]]
    exact hrel
  · rw [show (⟨(us ++ [u]).map (fun x => (x, sym)),
        (us ++ [u]).map (fun _ => Cmd.subscribeCmd sym)⟩ : DfState) =
      ⟨us.map (fun x => (x, sym)) ++ [(u, sym)],
        (us ++ [u]).map (fun _ => Cmd.subscribeCmd sym)⟩ from by rw [hmap]]
    rw [hrel]
    exact unsubscribe_last u sym _

/-- C4 amended witness at N = 2: UIDs "a" then "b" on "ETHUSDT". -/
theorem C4_amended_witness :
    ((["a"] ++ ["b"]).foldl (fun st x => subscribeBars st x "ETHUSDT") ⟨[], []⟩).sent =
      (["a"] ++ ["b"]).map (fun _ => Cmd.subscribeCmd "ETHUSDT") ∧
    (["a"].foldl unsubscribeBars
        ((["a"] ++ ["b"]).foldl (fun st x => subscribeBars st x "ETHUSDT") ⟨[], []⟩)) =
      ⟨[("b", "ETHUSDT")], (["a"] ++ ["b"]).map (fun _ => Cmd.subscribeCmd "ETHUSDT")⟩ ∧
    unsubscribeBars
        (["a"].foldl unsubscribeBars
          ((["a"] ++ ["b"]).foldl (fun st x => subscribeBars st x "ETHUSDT") ⟨[], []⟩)) "b" =
      ⟨[], (["a"] ++ ["b"]).map (fun _ => Cmd.subscribeCmd "ETHUSDT") ++
            [Cmd.unsubscribeCmd "ETHUSDT"]⟩ :=
  C4_amended ["a"] "b" "ETHUSDT" (by decide)


/-! Dispatch helper lemmas shared by the checksum and batch claims. -/

theorem mem_handlersFor {reg : WebSocketService.Registry} {key : String}
    {hid : Nat} (h : (key, hid) ∈ reg) :
    hid ∈ WebSocketService.handlersFor reg key := by
  unfold WebSocketService.handlersFor
  exact List.mem_map.mpr ⟨(key, hid), List.mem_filter.mpr ⟨h, by simp⟩, rfl⟩

theorem decodeBinaryMessage_not_pong (reg : WebSocketService.Registry)
    (d : Bytes) :
    (((WebSocketService.decodeBinaryMessage reg d).2.type == "pong")) = false := by
  unfold WebSocketService.decodeBinaryMessage
  cases hdec : BinaryDecoder.decode d with
  | none => rfl
  | some dec => cases dec <;> rfl

/-- C2 counterexample: a PriceUpdate frame whose trailing 4 bytes do not
match the CRC-32 of the preceding bytes is not decoded to null —
`decode` wraps it in a non-null price envelope with null data — and a
listener registered for "price" is invoked for the frame. -/
theorem C2_counterexample :
    validateChecksum badChecksumFrame = false ∧
    BinaryDecoder.decode badChecksumFrame ≠ none ∧
    WebSocketService.handleBinaryMessage [("price", 0)] badChecksumFrame ≠ [] := by
  decide

/-- C2 amended: for every frame failing checksum validation the typed
payload decoders yield null (or the empty batch), so no typed payload is
produced; but `decode` wraps known types in a non-null envelope with
null data, and handleMessage still invokes registered listeners — in
particular any wildcard listener is invoked for every binary frame. -/
theorem C2_amended (d : Bytes) (h : validateChecksum d = false) :
    BinaryDecoder.decodePriceUpdate d = none ∧
    BinaryDecoder.decodeBatchPriceUpdate d = [] ∧
    BinaryDecoder.decodeEnigmaUpdate d = none ∧
    BinaryDecoder.decodeHeartbeat d = none ∧
    (∀ (reg : WebSocketService.Registry) (hid : Nat), ("*", hid) ∈ reg →
      WebSocketService.handleBinaryMessage reg d ≠ []) := by
  refine ⟨?_, ?_, ?_, ?_, ?_⟩
  · unfold BinaryDecoder.decodePriceUpdate
    rw [h]
    simp
  · unfold BinaryDecoder.decodeBatchPriceUpdate
    rw [h]
    simp
  · unfold BinaryDecoder.decodeEnigmaUpdate
    rw [h]
    simp
  · unfold BinaryDecoder.decodeHeartbeat
    rw [h]
    simp
  · intro reg hid hmem heq
    have hw := mem_handlersFor hmem
    simp only [WebSocketService.handleBinaryMessage,
      decodeBinaryMessage_not_pong, Bool.false_eq_true, if_false,
      List.append_eq_nil] at heq
    have hmap := heq.2
    rw [List.map_eq_nil_iff] at hmap
    rw [hmap] at hw
    exact List.not_mem_nil hid hw

/-- C2 amended witness at the concrete bad-checksum frame with one
wildcard listener registered. -/
theorem C2_amended_witness :
    BinaryDecoder.decodePriceUpdate badChecksumFrame = none ∧
    BinaryDecoder.decodeBatchPriceUpdate badChecksumFrame = [] ∧
    BinaryDecoder.decodeEnigmaUpdate badChecksumFrame = none ∧
    BinaryDecoder.decodeHeartbeat badChecksumFrame = none ∧
    WebSocketService.handleBinaryMessage [("*", 33)] badChecksumFrame ≠ [] := by
  have h := C2_amended badChecksumFrame (by decide)
  exact ⟨h.1, h.2.1, h.2.2.1, h.2.2.2.1,
    h.2.2.2.2 [("*", 33)] 33 (List.mem_singleton_self _)⟩

/-- C7: the concrete PriceUpdate frame for "BTCUSDT" with
price 65000.50, bid 65000.00, ask 65001.00, volume 12.5 and timestamp
1700000000 seconds decodes to an event carrying exactly those values
with the timestamp scaled to 1700000000000 milliseconds; and replacing
any single payload byte with a different byte value makes checksum
validation fail. -/
theorem C7_btc_frame :
    BinaryDecoder.decodePriceUpdate btcFrame = some
      ⟨btcSymbolBytes,
       combineLE [0, 0, 0, 0, 16, 189, 239, 64],
       combineLE [0, 0, 0, 0, 0, 189, 239, 64],
       combineLE [0, 0, 0, 0, 32, 189, 239, 64],
       combineLE [0, 0, 0, 0, 0, 0, 41, 64],
       1700000000000⟩ ∧
    f64ToRat (combineLE [0, 0, 0, 0, 16, 189, 239, 64]) = 130001 / 2 ∧
    f64ToRat (combineLE [0, 0, 0, 0, 0, 189, 239, 64]) = 65000 ∧
    f64ToRat (combineLE [0, 0, 0, 0, 32, 189, 239, 64]) = 65001 ∧
    f64ToRat (combineLE [0, 0, 0, 0, 0, 0, 41, 64]) = 25 / 2 ∧
    (∀ i v : Nat, i < 47 → v < 256 → v ≠ btcPayload.getD i 0 →
      validateChecksum (btcFrame.set i v) = false) := by
  have hlen47 : btcPayload.length = 47 := by decide
  refine ⟨by decide, ?_, ?_, ?_, ?_, ?_⟩
  · norm_num [f64ToRat, combineLE]
  · norm_num [f64ToRat, combineLE]
  · norm_num [f64ToRat, combineLE]
  · norm_num [f64ToRat, combineLE]
  · intro i v hi hv hne
    exact validateChecksum_corrupt btcPayload (by decide) (by decide) i v
      (by rw [hlen47]; exact hi) hv hne

/-- C7 witness: corrupting payload byte 0 (replacing 1 by 2) defeats
checksum validation. -/
theorem C7_btc_frame_witness :
    validateChecksum (btcFrame.set 0 2) = false :=
  C7_btc_frame.2.2.2.2.2 0 2 (by decide) (by decide) (by decide)


/-! Batch frame decode and dispatch trace. -/

theorem decode_mkBatchFrame (ts : Nat) (rs : List RecordSpec)
    (hts : ts < 4294967296) (hcount : rs.length < 65536)
    (hwf : ∀ r ∈ rs, r.wf) :
    BinaryDecoder.decode (mkBatchFrame ts rs) =
      some (.batchPrice (rs.map (RecordSpec.expected · ts))) := by
  have h0 : BinaryDecoder.getMessageType (mkBatchFrame ts rs) = some 32769 := by
    show BinaryDecoder.getMessageType
        ((le16 32769 ++ (le16 rs.length ++ (le32 ts ++ (rs.map RecordSpec.enc).flatten))) ++
          le32 (crc32 (le16 32769 ++ (le16 rs.length ++ (le32 ts ++
            (rs.map RecordSpec.enc).flatten))))) = some 32769
    unfold BinaryDecoder.getMessageType
    rw [readU16_at [] (le16 32769)
      (le16 rs.length ++ (le32 ts ++ ((rs.map RecordSpec.enc).flatten ++
        le32 (crc32 (le16 32769 ++ (le16 rs.length ++ (le32 ts ++
          (rs.map RecordSpec.enc).flatten)))))))
      (by rw [List.nil_append]
          repeat rw [List.append_assoc])
      (show (0 : ℕ) = ([] : Bytes).length from rfl) (length_le16 _),
      combineLE_le16 (by norm_num)]
  unfold BinaryDecoder.decode
  rw [h0]
  simp only
  rw [if_neg (by decide : ¬(32769 = 0)),
    if_pos (by decide : 32769 &&& 32768 ≠ 0)]
  rw [decodeBatchPriceUpdate_mk ts rs hts hcount hwf]

theorem decodeBinaryMessage_batch (reg : Registry) (d : Bytes)
    (ps : List PriceData)
    (h : BinaryDecoder.decode d = some (.batchPrice ps)) :
    decodeBinaryMessage reg d =
      (batchRecordInvocations reg ps,
       (⟨"batch_price", .batchVal ps⟩ : WsMessage)) := by
  unfold decodeBinaryMessage
  rw [h]

theorem handleBinaryMessage_batch (reg : Registry) (d : Bytes)
    (ps : List PriceData)
    (h : BinaryDecoder.decode d = some (.batchPrice ps)) :
    handleBinaryMessage reg d =
      batchRecordInvocations reg ps ++
      (handlersFor reg "batch_price").map
        (fun x => ("batch_price", x, (⟨"batch_price", .batchVal ps⟩ : WsMessage))) ++
      (handlersFor reg "*").map
        (fun x => ("*", x, (⟨"batch_price", .batchVal ps⟩ : WsMessage))) := by
  unfold handleBinaryMessage
  rw [decodeBinaryMessage_batch reg d ps h]
  rfl

theorem handleBinaryMessage_mkBatch (reg : Registry) (ts : Nat)
    (rs : List RecordSpec) (hts : ts < 4294967296)
    (hcount : rs.length < 65536) (hwf : ∀ r ∈ rs, r.wf) :
    handleBinaryMessage reg (mkBatchFrame ts rs) =
      batchRecordInvocations reg (rs.map (RecordSpec.expected · ts)) ++
      (handlersFor reg "batch_price").map
        (fun h => ("batch_price", h,
          (⟨"batch_price", .batchVal (rs.map (RecordSpec.expected · ts))⟩ : WsMessage))) ++
      (handlersFor reg "*").map
        (fun h => ("*", h,
          (⟨"batch_price", .batchVal (rs.map (RecordSpec.expected · ts))⟩ : WsMessage))) :=
  handleBinaryMessage_batch reg (mkBatchFrame ts rs)
    (rs.map (RecordSpec.expected · ts))
    (decode_mkBatchFrame ts rs hts hcount hwf)

/-! Per-handler message extraction lemmas. -/

theorem msgsTo_append (a b : List Invocation) (k : String) (h : Nat) :
    msgsTo (a ++ b) k h = msgsTo a k h ++ msgsTo b k h := by
  unfold msgsTo
  rw [List.filter_append, List.map_append]

theorem msgsTo_map_same (key : String) (hs : List Nat) (h : Nat)
    (m : WsMessage) :
    msgsTo (hs.map fun x => (key, x, m)) key h =
      List.replicate (hs.count h) m := by
  induction hs with
  | nil => rfl
  | cons x t ih =>
    rw [List.map_cons]
    by_cases hx : x = h
    · subst hx
      unfold msgsTo at ih ⊢
      rw [List.filter_cons]
      simp only [beq_self_eq_true, Bool.and_self, if_true, List.map_cons, ih]
      rw [List.count_cons_self, List.replicate_succ]
    · unfold msgsTo at ih ⊢
      rw [List.filter_cons]
      have hcond : ((key, x, m).1 == key && (key, x, m).2.1 == h) = false := by
        simp [hx]
      rw [hcond]
      simp only [Bool.false_eq_true, if_false, ih]
      rw [List.count_cons_of_ne (Ne.symm hx)]

theorem msgsTo_map_ne (key k : String) (hs : List Nat) (h : Nat)
    (m : WsMessage) (hne : key ≠ k) :
    msgsTo (hs.map fun x => (key, x, m)) k h = [] := by
  unfold msgsTo
  rw [List.filter_eq_nil_iff.mpr, List.map_nil]
  intro inv hinv
  rcases List.mem_map.mp hinv with ⟨x, _, rfl⟩
  simp [hne]

theorem msgsTo_flatMap {α : Type} (ps : List α) (g : α → List Invocation)
    (k : String) (h : Nat) :
    msgsTo (ps.flatMap g) k h = ps.flatMap (fun p => msgsTo (g p) k h) := by
  induction ps with
  | nil => rfl
  | cons p t ih => rw [List.flatMap_cons, msgsTo_append, ih, List.flatMap_cons]

theorem flatMap_singleton_eq_map {α β : Type} (l : List α) (f : α → β) :
    (l.flatMap fun x => [f x]) = l.map f := by
  induction l with
  | nil => rfl
  | cons x t ih => rw [List.flatMap_cons, ih]; rfl

theorem flatMap_nil_eq_nil {α β : Type} (l : List α) :
    (l.flatMap fun _ => ([] : List β)) = [] := by
  induction l with
  | nil => rfl
  | cons x t ih => rw [List.flatMap_cons, ih]; rfl

theorem msgsTo_batchRecords (reg : Registry) (ps : List PriceData) (h : Nat)
    (hnd : (handlersFor reg "price").Nodup)
    (hmem : h ∈ handlersFor reg "price") :
    msgsTo (batchRecordInvocations reg ps) "price" h = ps.map priceMessage := by
  unfold batchRecordInvocations
  rw [msgsTo_flatMap]
  have hc : (handlersFor reg "price").count h = 1 :=
    List.count_eq_one_of_mem hnd hmem
  have heach : ∀ p : PriceData,
      msgsTo ((handlersFor reg "price").map fun x => ("price", x, priceMessage p))
        "price" h = [priceMessage p] := by
    intro p
    rw [msgsTo_map_same, hc, List.replicate_one]
  calc (ps.flatMap fun p =>
        msgsTo ((handlersFor reg "price").map fun x => ("price", x, priceMessage p))
          "price" h)
      = ps.flatMap (fun p => [priceMessage p]) :=
        List.flatMap_congr (fun p _ => heach p)
    _ = ps.map priceMessage := flatMap_singleton_eq_map ps priceMessage

theorem msgsTo_batchRecords_ne (reg : Registry) (ps : List PriceData)
    (k : String) (h : Nat) (hk : k ≠ "price") :
    msgsTo (batchRecordInvocations reg ps) k h = [] := by
  unfold batchRecordInvocations
  rw [msgsTo_flatMap]
  have heach : ∀ p : PriceData,
      msgsTo ((handlersFor reg "price").map fun x => ("price", x, priceMessage p))
        k h = [] := fun p => msgsTo_map_ne "price" k _ h _ (Ne.symm hk)
  calc (ps.flatMap fun p =>
        msgsTo ((handlersFor reg "price").map fun x => ("price", x, priceMessage p))
          k h)
      = ps.flatMap (fun _ => ([] : List WsMessage)) :=
        List.flatMap_congr (fun p _ => heach p)
    _ = [] := flatMap_nil_eq_nil ps


/-- C3: for every well-formed batch frame carrying N records, dispatch
produces exactly one batch event whose payload is the list of the N
decoded records, and exactly N individual price dispatches to each
handler registered for the "price" event type, in the same order as the
records appear in the frame. -/
theorem C3_batch_dispatch (ts : Nat) (rs : List RecordSpec)
    (reg : Registry) (hts : ts < 4294967296) (hcount : rs.length < 65536)
    (hwf : ∀ r ∈ rs, r.wf) :
    BinaryDecoder.decodeBatchPriceUpdate (mkBatchFrame ts rs) =
      rs.map (RecordSpec.expected · ts) ∧
    (rs.map (RecordSpec.expected · ts)).length = rs.length ∧
    (∀ h : Nat, (handlersFor reg "price").Nodup →
      h ∈ handlersFor reg "price" →
      msgsTo (handleBinaryMessage reg (mkBatchFrame ts rs)) "price" h =
        (rs.map (RecordSpec.expected · ts)).map priceMessage) ∧
    (∀ h : Nat, (handlersFor reg "batch_price").Nodup →
      h ∈ handlersFor reg "batch_price" →
      msgsTo (handleBinaryMessage reg (mkBatchFrame ts rs)) "batch_price" h =
        [⟨"batch_price", .batchVal (rs.map (RecordSpec.expected · ts))⟩]) := by
  refine ⟨decodeBatchPriceUpdate_mk ts rs hts hcount hwf,
    List.length_map rs _, ?_, ?_⟩
  · intro h hnd hmem
    rw [handleBinaryMessage_mkBatch reg ts rs hts hcount hwf,
      msgsTo_append, msgsTo_append,
      msgsTo_batchRecords reg _ h hnd hmem,
      msgsTo_map_ne "batch_price" "price" _ h _ (by decide),
      msgsTo_map_ne "*" "price" _ h _ (by decide)]
    simp
  · intro h hnd hmem
    rw [handleBinaryMessage_mkBatch reg ts rs hts hcount hwf,
      msgsTo_append, msgsTo_append,
      msgsTo_batchRecords_ne reg _ "batch_price" h (by decide),
      msgsTo_map_same "batch_price" _ h _,
      List.count_eq_one_of_mem hnd hmem,
      msgsTo_map_ne "*" "batch_price" _ h _ (by decide),
      List.replicate_one]
    simp

/-- C3 witness: a one-record batch frame dispatched through a registry
with one price, one batch and one wildcard handler. -/
theorem C3_batch_dispatch_witness :
    BinaryDecoder.decodeBatchPriceUpdate (mkBatchFrame 0 [recC]) =
      [recC].map (RecordSpec.expected · 0) ∧
    ([recC].map (RecordSpec.expected · 0)).length = [recC].length ∧
    msgsTo (handleBinaryMessage regC (mkBatchFrame 0 [recC])) "price" 0 =
      ([recC].map (RecordSpec.expected · 0)).map priceMessage ∧
    msgsTo (handleBinaryMessage regC (mkBatchFrame 0 [recC])) "batch_price" 1 =
      [⟨"batch_price", .batchVal ([recC].map (RecordSpec.expected · 0))⟩] := by
  have h := C3_batch_dispatch 0 [recC] regC (by decide) (by decide) (by decide)
  exact ⟨h.1, h.2.1, h.2.2.1 0 (by decide) (by decide),
    h.2.2.2 1 (by decide) (by decide)⟩

/-- C10: for every well-formed binary batch frame, each handler
registered under the wildcard key "*" is invoked exactly once — with the
batch message only; every invocation that delivers an individual
price-typed message was looked up under the "price" key; and every
invocation looked up under "*" delivers the batch message. -/
theorem C10_wildcard_batch_only (ts : Nat) (rs : List RecordSpec)
    (reg : Registry) (hts : ts < 4294967296) (hcount : rs.length < 65536)
    (hwf : ∀ r ∈ rs, r.wf) :
    (∀ h : Nat, (handlersFor reg "*").Nodup → h ∈ handlersFor reg "*" →
      msgsTo (handleBinaryMessage reg (mkBatchFrame ts rs)) "*" h =
        [⟨"batch_price", .batchVal (rs.map (RecordSpec.expected · ts))⟩]) ∧
    (∀ inv ∈ handleBinaryMessage reg (mkBatchFrame ts rs),
      inv.2.2.type = "price" → inv.1 = "price") ∧
    (∀ inv ∈ handleBinaryMessage reg (mkBatchFrame ts rs),
      inv.1 = "*" →
        inv.2.2 = ⟨"batch_price", .batchVal (rs.map (RecordSpec.expected · ts))⟩) := by
  refine ⟨?_, ?_, ?_⟩
  · intro h hnd hmem
    rw [handleBinaryMessage_mkBatch reg ts rs hts hcount hwf,
      msgsTo_append, msgsTo_append,
      msgsTo_batchRecords_ne reg _ "*" h (by decide),
      msgsTo_map_ne "batch_price" "*" _ h _ (by decide),
      msgsTo_map_same "*" _ h _,
      List.count_eq_one_of_mem hnd hmem,
      List.replicate_one]
    simp
  · intro inv hinv htype
    rw [handleBinaryMessage_mkBatch reg ts rs hts hcount hwf] at hinv
    rcases List.mem_append.mp hinv with h12 | h3
    · rcases List.mem_append.mp h12 with h1 | h2
      · unfold batchRecordInvocations at h1
        rcases List.mem_flatMap.mp h1 with ⟨p, _, hmap⟩
        rcases List.mem_map.mp hmap with ⟨x, _, rfl⟩
        rfl
      · rcases List.mem_map.mp h2 with ⟨x, _, rfl⟩
        simp at htype
    · rcases List.mem_map.mp h3 with ⟨x, _, rfl⟩
      simp at htype
  · intro inv hinv hkey
    rw [handleBinaryMessage_mkBatch reg ts rs hts hcount hwf] at hinv
    rcases List.mem_append.mp hinv with h12 | h3
    · rcases List.mem_append.mp h12 with h1 | h2
      · unfold batchRecordInvocations at h1
        rcases List.mem_flatMap.mp h1 with ⟨p, _, hmap⟩
        rcases List.mem_map.mp hmap with ⟨x, _, rfl⟩
        simp at hkey
      · rcases List.mem_map.mp h2 with ⟨x, _, rfl⟩
        simp at hkey
    · rcases List.mem_map.mp h3 with ⟨x, _, rfl⟩
      rfl

/-- C10 witness: the one-record batch frame through the concrete
registry; the wildcard handler 2 receives exactly the batch message, a
concrete per-record invocation carries key "price", and a concrete
wildcard invocation carries the batch message. -/
theorem C10_wildcard_batch_only_witness :
    msgsTo (handleBinaryMessage regC (mkBatchFrame 0 [recC])) "*" 2 =
      [⟨"batch_price", .batchVal ([recC].map (RecordSpec.expected · 0))⟩] ∧
    (("price", 0, priceMessage (recC.expected 0)) :
        WebSocketService.Invocation).1 = "price" ∧
    (("*", 2, (⟨"batch_price", .batchVal ([recC].map (RecordSpec.expected · 0))⟩ : WsMessage)) :
        WebSocketService.Invocation).2.2 =
      ⟨"batch_price", .batchVal ([recC].map (RecordSpec.expected · 0))⟩ := by
  have h := C10_wildcard_batch_only 0 [recC] regC (by decide) (by decide) (by decide)
  refine ⟨h.1 2 (by decide) (by decide), ?_, ?_⟩
  · exact h.2.1 ("price", 0, priceMessage (recC.expected 0)) (by decide) rfl
  · exact h.2.2 ("*", 2, ⟨"batch_price", .batchVal ([recC].map (RecordSpec.expected · 0))⟩)
      (by decide) rfl

/-- C8 witness: a concrete nine-double frame for symbol "X" with all
fields zero decodes to the record carrying all nine zero fields. -/
theorem C8_nine_doubles_witness :
    BinaryDecoderV2.decodePriceUpdate (mkPriceFrameV2 0 [88] fieldsC) =
      some (fieldsC.expected [88] 0) :=
  C8_nine_doubles 0 [88] fieldsC (by decide) (by decide) (by decide) (by decide)

end TradeFront
